import Mathlib

/-!
Verification of the Easy-Bulk-GIF-Optimizer batch pipeline.

This file gives a shallow embedding, in Lean 4, of the parts of the
repository that the specification's claims are about:

* `src/utils/file_utils.py` — natural sort keys, folder scanning,
  image grouping, temp-folder cleanup;
* `src/core/batch_processor.py` — the three mode loops
  (`process_mode1_video_to_gif`, `process_mode2_images_to_gif`,
  `process_mode3_optimize_gif`) with skip logic, cooperative
  cancellation, statistics and callback traces.

External subprocess tools (ffmpeg, gifski) are modelled as an
environment of per-item result functions, and the filesystem as the
list of existing file paths; callbacks are recorded in an event trace.
-/

/-! ## Characters and Python-style helpers -/

/-- ASCII lower-casing, as applied by `str.lower()` on filename text. -/
def pyToLower (c : Char) : Char := c.toLower

/-- The characters matched by Python's regex class `\s` (ASCII). -/
def isPySpace (c : Char) : Bool :=
  c = ' ' || c = '\t' || c = '\n' || c = '\r' || c = Char.ofNat 11 || c = Char.ofNat 12

/-- Value of a digit string, as computed by Python's `int` on digits. -/
def digitsToNat (ds : List Char) : Nat :=
  ds.foldl (fun a c => a * 10 + (c.toNat - '0'.toNat)) 0

/-! ## `pathlib` stem and suffix

`PurePath.stem` / `PurePath.suffix`: the suffix starts at the last dot
of the name provided that dot is neither the first nor the last
character; otherwise the suffix is empty and the stem is the whole
name. -/

/-- Index of the last occurrence of `c` in `l`, if any (0-based). -/
def lastIdxOf (c : Char) (l : List Char) : Option Nat :=
  match l with
  | [] => none
  | a :: rest =>
    match lastIdxOf c rest with
    | some i => some (i + 1)
    | none => if a = c then some 0 else none

/-- `PurePath.stem` of a file name. -/
def pyStem (name : String) : String :=
  let cs := name.toList
  match lastIdxOf '.' cs with
  | some i => if 0 < i ∧ i < cs.length - 1 then String.mk (cs.take i) else name
  | none => name

/-- `PurePath.suffix` of a file name. -/
def pySuffix (name : String) : String :=
  let cs := name.toList
  match lastIdxOf '.' cs with
  | some i => if 0 < i ∧ i < cs.length - 1 then String.mk (cs.drop i) else ""
  | none => ""

/-! ## Natural sort key (`natural_sort_key`)

`re.split(r'(\d+)', s)` splits `s` at maximal digit runs and keeps
the runs, producing text pieces at even positions and digit runs at
odd positions; the list comprehension then turns digit runs into
`int`s and lower-cases the text pieces. -/

/-- One component of a natural sort key: a (lower-cased) text piece or
the integer value of a digit run. -/
inductive KeyPart where
  | str (s : List Char)
  | num (n : Nat)
deriving DecidableEq, Repr

/-- Whether a key part is a text piece. -/
def KeyPart.isStr : KeyPart → Bool
  | .str _ => true
  | .num _ => false

/-- Scanning state while splitting at digit runs: either the current
text piece accumulated in reverse, or the value of the current digit
run. -/
def natKeyGo : (List Char ⊕ Nat) → List Char → List KeyPart
  | Sum.inl acc, [] => [KeyPart.str acc.reverse]
  | Sum.inr n, [] => [KeyPart.num n, KeyPart.str []]
  | Sum.inl acc, c :: rest =>
    if c.isDigit then KeyPart.str acc.reverse :: natKeyGo (Sum.inr (c.toNat - '0'.toNat)) rest
    else natKeyGo (Sum.inl (pyToLower c :: acc)) rest
  | Sum.inr n, c :: rest =>
    if c.isDigit then natKeyGo (Sum.inr (n * 10 + (c.toNat - '0'.toNat))) rest
    else KeyPart.num n :: natKeyGo (Sum.inl [pyToLower c]) rest

/-- `natural_sort_key` from `src/utils/file_utils.py` on the ASCII
fragment of the character classes (both the split class `\d` and the
conversion guard `str.isdigit` restricted to ASCII are `0`–`9`):
`re.split(r'(\d+)', s)` yields the maximal digit runs of `s` together
with the (possibly empty) text pieces before, between and after them;
digit runs become their `int` value and text pieces are lower-cased.
On ASCII filenames this agrees with the program; the full behaviour,
where the split class and the conversion guard differ and `int` can
raise `ValueError`, is modelled by `natural_sort_key_py` below. -/
def natural_sort_key (s : String) : List KeyPart :=
  natKeyGo (Sum.inl []) s.toList

/-! ## Comparison of keys

Python compares the key lists lexicographically: `int` components
numerically, `str` components by code points; comparing an `int`
component with a `str` component raises `TypeError`, which we model
as `none`. -/

/-- Comparison of two naturals (Python `int` comparison). -/
def cmpNat (m n : Nat) : Ordering :=
  if m < n then .lt else if m = n then .eq else .gt

/-- Lexicographic comparison of lists of naturals. -/
def cmpNatList : List Nat → List Nat → Ordering
  | [], [] => .eq
  | [], _ :: _ => .lt
  | _ :: _, [] => .gt
  | a :: as, b :: bs =>
    match cmpNat a b with
    | .eq => cmpNatList as bs
    | o => o

/-- Comparison of two key parts; `none` models Python's `TypeError`
when an `int` meets a `str`. -/
def cmpKeyPart : KeyPart → KeyPart → Option Ordering
  | .str a, .str b => some (cmpNatList (a.map Char.toNat) (b.map Char.toNat))
  | .num a, .num b => some (cmpNat a b)
  | _, _ => none

/-- Lexicographic comparison of whole keys, propagating the
`TypeError` case. -/
def cmpKey : List KeyPart → List KeyPart → Option Ordering
  | [], [] => some .eq
  | [], _ :: _ => some .lt
  | _ :: _, [] => some .gt
  | a :: as, b :: bs =>
    match cmpKeyPart a b with
    | none => none
    | some .eq => cmpKey as bs
    | some o => some o

/-- Strict "less than" on strings under their natural sort keys; this
is the order used by `sorted(..., key=natural_sort_key)`. -/
def natLt (a b : String) : Bool :=
  cmpKey (natural_sort_key a) (natural_sort_key b) = some Ordering.lt

/-! ## Stable sorting (`sorted` with a key) -/

/-- Insert `a` into a list sorted by `lt`, after every element
strictly below it — the placement a stable sort produces. -/
def insertSorted (lt : α → α → Bool) (a : α) : List α → List α
  | [] => [a]
  | b :: l => if lt b a then b :: insertSorted lt a l else a :: b :: l

/-- Stable sort by a strict comparison, as Python's `sorted`. -/
def sortByLt (lt : α → α → Bool) : List α → List α
  | [] => []
  | a :: l => insertSorted lt a (sortByLt lt l)

/-! ## Folder scanning (`scan_folder_for_files` and friends)

A folder is modelled by the list of file names it contains, in
directory-listing order.  `folder.glob(f'*{ext}')` selects the names
ending in `ext`; the scan globs each extension in lower and upper
case, removes duplicates keeping first occurrences
(`dict.fromkeys`), and sorts by the natural key of the name. -/

/-- Supported video extensions (`VIDEO_EXTENSIONS`). -/
def VIDEO_EXTENSIONS : List String := [".mp4", ".avi", ".mov", ".mkv", ".webm"]

/-- Supported image extensions (`IMAGE_EXTENSIONS`). -/
def IMAGE_EXTENSIONS : List String := [".png", ".jpg", ".jpeg", ".bmp"]

/-- The GIF extension (`GIF_EXTENSION`). -/
def GIF_EXTENSION : String := ".gif"

/-- Whether a file name ends with the given extension string. -/
def nameEndsWith (name ext : String) : Bool :=
  ext.toList.isSuffixOf name.toList

/-- `ext.upper()`: ASCII upper-casing of an extension. -/
def extUpper (ext : String) : String :=
  String.mk (ext.toList.map Char.toUpper)

/-- Duplicate removal keeping first occurrences (`dict.fromkeys`),
scanning with the set of names already seen. -/
def dedupSeen (seen : List String) : List String → List String
  | [] => []
  | a :: rest => if a ∈ seen then dedupSeen seen rest else a :: dedupSeen (seen ++ [a]) rest

/-- Duplicate removal keeping first occurrences (`dict.fromkeys`). -/
def dedupKeepFirst (l : List String) : List String := dedupSeen [] l

/-- `scan_folder_for_files`: glob each extension (lower then upper
case), deduplicate, and sort naturally by file name. -/
def scan_folder_for_files (listing : List String) (extensions : List String) : List String :=
  let files := extensions.flatMap
    (fun ext => listing.filter (fun n => nameEndsWith n ext)
      ++ listing.filter (fun n => nameEndsWith n (extUpper ext)))
  sortByLt natLt (dedupKeepFirst files)

/-- `scan_for_videos`. -/
def scan_for_videos (listing : List String) : List String :=
  scan_folder_for_files listing VIDEO_EXTENSIONS

/-- `scan_for_images`. -/
def scan_for_images (listing : List String) : List String :=
  scan_folder_for_files listing IMAGE_EXTENSIONS

/-- `scan_for_gifs`. -/
def scan_for_gifs (listing : List String) : List String :=
  scan_folder_for_files listing [GIF_EXTENSION]

/-! ## Image grouping (`group_images_by_name`)

The base name of an image is its stem with one trailing numbering
suffix removed.  The first pattern is `[_\-\s]\(?(\d+)\)?$`; when it
does not match, the code retries with `\s+\d+$`.  `re.sub` removes
the leftmost match, and a match of either pattern always extends to
the end of the string. -/

/-- Does a tail of the stem match `\(?\d+\)?` entirely (the part of
the first pattern after the separator)? -/
def numTail (l : List Char) : Bool :=
  let core := fun (t : List Char) =>
    let ds := t.takeWhile Char.isDigit
    let rest := t.dropWhile Char.isDigit
    !ds.isEmpty && (rest.isEmpty || rest = [')'])
  match l with
  | '(' :: t => core t
  | _ => core l

/-- Leftmost match of `[_\-\s]\(?(\d+)\)?$`: returns the prefix before
the match, or `none` when the pattern does not occur. -/
def stripNumSuffix1 : List Char → Option (List Char)
  | [] => none
  | c :: rest =>
    if (c = '_' || c = '-' || isPySpace c) && numTail rest then some []
    else (stripNumSuffix1 rest).map (fun pre => c :: pre)

/-- Does `l` match `\s+\d+` entirely? -/
def spaceNumTail (l : List Char) : Bool :=
  let ws := l.takeWhile isPySpace
  let rest := l.dropWhile isPySpace
  !ws.isEmpty && !rest.isEmpty && rest.all Char.isDigit

/-- Leftmost match of `\s+\d+$`: returns the prefix before the match,
or `none` when the pattern does not occur. -/
def stripNumSuffix2 : List Char → Option (List Char)
  | [] => none
  | c :: rest =>
    if spaceNumTail (c :: rest) then some []
    else (stripNumSuffix2 rest).map (fun pre => c :: pre)

/-- Base name derivation of `group_images_by_name`: strip the first
pattern; if that changed nothing, strip the second. -/
def imageBaseName (stem : String) : String :=
  match stripNumSuffix1 stem.toList with
  | some pre => String.mk pre
  | none =>
    match stripNumSuffix2 stem.toList with
    | some pre => String.mk pre
    | none => stem

/-- Append a member to its group in an association list that keeps
groups in first-appearance order (Python `dict` insertion order). -/
def addToGroup (key v : String) : List (String × List String) → List (String × List String)
  | [] => [(key, [v])]
  | (k, vs) :: rest =>
    if k = key then (k, vs ++ [v]) :: rest else (k, vs) :: addToGroup key v rest

/-- `group_images_by_name`: group by derived base name, then sort each
group naturally by file name. -/
def group_images_by_name (image_files : List String) : List (String × List String) :=
  let groups := image_files.foldl (fun gs f => addToGroup (imageBaseName (pyStem f)) f gs) []
  groups.map (fun g => (g.1, sortByLt natLt g.2))

/-! ## Batch orchestration (`BatchProcessor`)

The mode loops of `src/core/batch_processor.py` are embedded with:

* the folder contents as listings of file names;
* the filesystem as the list of existing output file paths, plus the
  list of files currently in `<outputFolder>/temp/`;
* the external tools (`extract_frames`, `create_gif_from_frames`,
  `optimize_gif`) as per-item result functions in an environment;
* the cooperative cancellation flag as the value read by the check at
  the top of the i-th loop iteration;
* progress and status callbacks, adapter invocations and temp-folder
  cleanups recorded in an ordered event trace. -/

/-- Observable events of one run, in emission order. -/
inductive Event where
  /-- A `progress_callback(current, total)` invocation. -/
  | progress (cur total : Nat)
  /-- A `status_callback(message)` invocation. -/
  | status (msg : String)
  /-- An `extract_frames` invocation for a video. -/
  | extractCall (video : String)
  /-- A `create_gif_from_frames` invocation (mode 1 keyed by the
  video, mode 2 keyed by the group base name). -/
  | encodeCall (item : String)
  /-- An `optimize_gif` invocation for a GIF. -/
  | optimizeCall (gif : String)
  /-- A `cleanup_temp_folder` invocation. -/
  | cleanupTemp
deriving DecidableEq, Repr

/-- The `stats` dictionary of a run (the mode-3 float size fields are
not modelled). -/
structure Stats where
  total : Nat
  processed : Nat
  skipped : Nat
  failed : Nat
deriving DecidableEq, Repr

/-- The mutable state a run threads through its loop. -/
structure RunState where
  stats : Stats
  /-- Existing files, as full paths (outputs live here). -/
  fs : List String
  /-- Files currently in the temp folder. -/
  temp : List String
  /-- Events emitted so far, oldest first. -/
  trace : List Event
deriving DecidableEq, Repr

/-- The settings dictionary: `settings.get(key, default)` is modelled
with `Option` fields and `getD`. -/
structure GifSettings where
  quality : Option Nat := none
  fps : Option Nat := none
  keep_temp_files : Option Bool := none
deriving DecidableEq, Repr

/-- The run environment: external tool outcomes per item and the
cancellation flag as read at the top of each iteration. -/
structure Env where
  /-- `extract_frames` result for a video: (success, frame files
  written to the temp folder).  The wrapper returns an empty frame
  list whenever it fails. -/
  extract : String → Bool × List String
  /-- `create_gif_from_frames` success for an item. -/
  encode : String → Bool
  /-- `optimize_gif` success for a GIF. -/
  optimize : String → Bool
  /-- Value of `self.cancel_flag` read at the top of iteration `i`. -/
  cancel : Nat → Bool

/-- Result of one mode method: `(True, "", stats)` with the final
state, or `(False, message, {})`. -/
inductive RunResult where
  | ok (st : RunState)
  | err (msg : String)
deriving DecidableEq, Repr

/-- Initial run state: statistics zeroed with the given total, the
starting filesystem and temp contents, no events yet. -/
def initState (total : Nat) (fs0 temp0 : List String) : RunState :=
  ⟨⟨total, 0, 0, 0⟩, fs0, temp0, []⟩

/-- The `for i, item in enumerate(items)` loop with the cancellation
check at the top of each iteration: when the flag is set the loop
breaks, otherwise the body `step` runs and the loop continues. -/
def batchLoop (cancel : Nat → Bool) (step : Nat → α → RunState → RunState) :
    List α → Nat → RunState → RunState
  | [], _, s => s
  | x :: rest, i, s =>
    if cancel i then s
    else batchLoop cancel step rest (i + 1) (step i x s)

/-- Derived output path of a mode-1 item (`<outputFolder>/<stem>.gif`,
test runs prefixed with `test_`). -/
def mode1OutPath (output_folder : String) (is_test : Bool) (video : String) : String :=
  output_folder ++ "/" ++ (if is_test then "test_" ++ pyStem video ++ ".gif"
    else pyStem video ++ ".gif")

/-- Loop body of `process_mode1_video_to_gif` for item `video` at
0-based index `i`. -/
def mode1Step (env : Env) (output_folder : String) (settings : GifSettings)
    (is_test : Bool) (total : Nat) (i : Nat) (video : String) (s : RunState) : RunState :=
  let output_path := mode1OutPath output_folder is_test video
  let file_num := i + 1
  if is_test = false ∧ output_path ∈ s.fs then
    { s with
      stats := { s.stats with skipped := s.stats.skipped + 1 },
      trace := s.trace ++
        [Event.status ("[" ++ Nat.repr file_num ++ "/" ++ Nat.repr total ++ "] Skipped "
          ++ video ++ " (already exists)"),
         Event.progress file_num total] }
  else
    let res := env.extract video
    let s1 := { s with
      temp := s.temp ++ res.2,
      trace := s.trace ++
        [Event.status ("[" ++ Nat.repr file_num ++ "/" ++ Nat.repr total
          ++ "] Extracting frames from " ++ video ++ "..."),
         Event.extractCall video] }
    if res.1 = false ∨ res.2 = [] then
      { s1 with
        stats := { s1.stats with failed := s1.stats.failed + 1 },
        temp := [],
        trace := s1.trace ++ [Event.cleanupTemp] }
    else
      let s2 := { s1 with
        trace := s1.trace ++
          [Event.status ("[" ++ Nat.repr file_num ++ "/" ++ Nat.repr total
            ++ "] Creating GIF from " ++ Nat.repr res.2.length ++ " frames ("
            ++ video ++ ")..."),
           Event.encodeCall video] }
      let succ := env.encode video
      let keep := settings.keep_temp_files.getD true
      let s3 := if keep then s2
        else { s2 with temp := [], trace := s2.trace ++ [Event.cleanupTemp] }
      let s4 := if succ then
          { s3 with
            stats := { s3.stats with processed := s3.stats.processed + 1 },
            fs := s3.fs ++ [output_path] }
        else
          { s3 with stats := { s3.stats with failed := s3.stats.failed + 1 } }
      { s4 with trace := s4.trace ++ [Event.progress file_num total] }

/-- The work list of a mode-1 run before test truncation: scanned
videos, minus `.gif` files when the input folder is the output
folder. -/
def mode1Items (listing : List String) (input_folder output_folder : String) : List String :=
  let all_videos := scan_for_videos listing
  if input_folder = output_folder then
    all_videos.filter (fun v => String.mk ((pySuffix v).toList.map pyToLower) ≠ ".gif")
  else all_videos

/-- The work list a mode-1 run actually iterates (after test
truncation). -/
def mode1RunItems (listing : List String) (input_folder output_folder : String)
    (is_test : Bool) : List String :=
  let videos := mode1Items listing input_folder output_folder
  if is_test then videos.take 1 else videos

/-- `process_mode1_video_to_gif`. -/
def process_mode1_video_to_gif (env : Env) (listing : List String)
    (input_folder output_folder : String) (settings : GifSettings) (is_test : Bool)
    (fs0 temp0 : List String) : RunResult :=
  if (mode1Items listing input_folder output_folder).isEmpty then
    .err "No video files found in input folder"
  else
    let videos := mode1RunItems listing input_folder output_folder is_test
    .ok (batchLoop env.cancel (mode1Step env output_folder settings is_test videos.length)
      videos 0 (initState videos.length fs0 temp0))

/-- Derived output path of a mode-2 group
(`<outputFolder>/<baseName>.gif`, test runs prefixed). -/
def mode2OutPath (output_folder : String) (is_test : Bool) (base_name : String) : String :=
  output_folder ++ "/" ++ (if is_test then "test_" ++ base_name ++ ".gif"
    else base_name ++ ".gif")

/-- Loop body of `process_mode2_images_to_gif` for one
`(base_name, image_files)` group. -/
def mode2Step (env : Env) (output_folder : String) (_settings : GifSettings)
    (is_test : Bool) (total : Nat) (i : Nat) (group : String × List String)
    (s : RunState) : RunState :=
  let output_path := mode2OutPath output_folder is_test group.1
  let file_num := i + 1
  if is_test = false ∧ output_path ∈ s.fs then
    { s with
      stats := { s.stats with skipped := s.stats.skipped + 1 },
      trace := s.trace ++
        [Event.status ("[" ++ Nat.repr file_num ++ "/" ++ Nat.repr total ++ "] Skipped "
          ++ group.1 ++ " (already exists)"),
         Event.progress file_num total] }
  else
    let s1 := { s with
      trace := s.trace ++
        [Event.status ("[" ++ Nat.repr file_num ++ "/" ++ Nat.repr total
          ++ "] Creating GIF from " ++ Nat.repr group.2.length ++ " images ("
          ++ group.1 ++ ")..."),
         Event.encodeCall group.1] }
    let succ := env.encode group.1
    let s2 := if succ then
        { s1 with
          stats := { s1.stats with processed := s1.stats.processed + 1 },
          fs := s1.fs ++ [output_path] }
      else
        { s1 with stats := { s1.stats with failed := s1.stats.failed + 1 } }
    { s2 with trace := s2.trace ++ [Event.progress file_num total] }

/-- The work list a mode-2 run actually iterates. -/
def mode2RunItems (listing : List String) (is_test : Bool) : List (String × List String) :=
  let groups := group_images_by_name (scan_for_images listing)
  if is_test then groups.take 1 else groups

/-- `process_mode2_images_to_gif`. -/
def process_mode2_images_to_gif (env : Env) (listing : List String)
    (_input_folder output_folder : String) (settings : GifSettings) (is_test : Bool)
    (fs0 temp0 : List String) : RunResult :=
  if (scan_for_images listing).isEmpty then .err "No image files found in input folder"
  else if (group_images_by_name (scan_for_images listing)).isEmpty then
    .err "No image groups detected"
  else
    let group_items := mode2RunItems listing is_test
    .ok (batchLoop env.cancel
      (mode2Step env output_folder settings is_test group_items.length)
      group_items 0 (initState group_items.length fs0 temp0))

/-- Derived output file name of a mode-3 item
(`<stem>_optim_<quality>q_<fps>fps.gif`, test runs prefixed). -/
def mode3OutputName (stem : String) (quality fps : Nat) (is_test : Bool) : String :=
  if is_test then
    "test_" ++ stem ++ "_optim_" ++ Nat.repr quality ++ "q_" ++ Nat.repr fps ++ "fps.gif"
  else
    stem ++ "_optim_" ++ Nat.repr quality ++ "q_" ++ Nat.repr fps ++ "fps.gif"

/-- Derived output path of a mode-3 item. -/
def mode3OutPath (output_folder : String) (settings : GifSettings) (is_test : Bool)
    (gif : String) : String :=
  output_folder ++ "/"
    ++ mode3OutputName (pyStem gif) (settings.quality.getD 90) (settings.fps.getD 20) is_test

/-- Loop body of `process_mode3_optimize_gif` for GIF `gif` at 0-based
index `i` (file-size accumulation is not modelled). -/
def mode3Step (env : Env) (output_folder : String) (settings : GifSettings)
    (is_test : Bool) (total : Nat) (i : Nat) (gif : String) (s : RunState) : RunState :=
  let output_path := mode3OutPath output_folder settings is_test gif
  let file_num := i + 1
  if is_test = false ∧ output_path ∈ s.fs then
    { s with
      stats := { s.stats with skipped := s.stats.skipped + 1 },
      trace := s.trace ++
        [Event.status ("[" ++ Nat.repr file_num ++ "/" ++ Nat.repr total ++ "] Skipped "
          ++ gif ++ " (already exists)"),
         Event.progress file_num total] }
  else
    let s1 := { s with
      trace := s.trace ++
        [Event.status ("[" ++ Nat.repr file_num ++ "/" ++ Nat.repr total
          ++ "] Optimizing " ++ gif ++ "..."),
         Event.optimizeCall gif] }
    let succ := env.optimize gif
    let s2 := if succ then
        { s1 with
          stats := { s1.stats with processed := s1.stats.processed + 1 },
          fs := s1.fs ++ [output_path] }
      else
        { s1 with stats := { s1.stats with failed := s1.stats.failed + 1 } }
    { s2 with trace := s2.trace ++ [Event.progress file_num total] }

/-- The work list a mode-3 run actually iterates. -/
def mode3RunItems (listing : List String) (is_test : Bool) : List String :=
  let gifs := scan_for_gifs listing
  if is_test then gifs.take 1 else gifs

/-- `process_mode3_optimize_gif`. -/
def process_mode3_optimize_gif (env : Env) (listing : List String)
    (_input_folder output_folder : String) (settings : GifSettings) (is_test : Bool)
    (fs0 temp0 : List String) : RunResult :=
  if (scan_for_gifs listing).isEmpty then .err "No GIF files found in input folder"
  else
    let gifs := mode3RunItems listing is_test
    .ok (batchLoop env.cancel (mode3Step env output_folder settings is_test gifs.length)
      gifs 0 (initState gifs.length fs0 temp0))

/-! ## Derived notions used by the theorems -/

/-- `processed + skipped + failed`. -/
def sumStats (st : Stats) : Nat := st.processed + st.skipped + st.failed

/-- Whether the mode-1 failure path for a video is the frame
extraction one (`not success or not frames`). -/
def mode1ExtractFails (env : Env) (video : String) : Bool :=
  !(env.extract video).1 || ((env.extract video).2 == [])

/-- Whether a mode-1 item's tool chain fails (extraction or
encoding). -/
def mode1ItemFails (env : Env) (video : String) : Bool :=
  mode1ExtractFails env video || !(env.encode video)

/-- Statistics of a run result (`{}` for the failure case). -/
def statsOf : RunResult → Stats
  | .ok st => st.stats
  | .err _ => ⟨0, 0, 0, 0⟩

/-- Event trace of a run result. -/
def traceOf : RunResult → List Event
  | .ok st => st.trace
  | .err _ => []

/-- Temp-folder contents at the end of a run result. -/
def tempOf : RunResult → List String
  | .ok st => st.temp
  | .err _ => []

/-- Whether an event is an external-tool invocation. -/
def Event.isAdapterCall : Event → Bool
  | .extractCall _ => true
  | .encodeCall _ => true
  | .optimizeCall _ => true
  | _ => false

/-! ## Generic lemmas about the loop skeleton -/

theorem batchLoop_sum_le {α : Type} (c : Nat → Bool) (step : Nat → α → RunState → RunState)
    (h1 : ∀ i x s, sumStats ((step i x s).stats) = sumStats s.stats + 1) :
    ∀ (l : List α) (i : Nat) (s : RunState),
      sumStats ((batchLoop c step l i s).stats) ≤ sumStats s.stats + l.length := by
  intro l
  induction l with
  | nil => intro i s; simp [batchLoop]
  | cons x rest ih =>
    intro i s
    simp only [batchLoop]
    cases hc : c i
    · simp only [Bool.false_eq_true, if_false]
      have := ih (i + 1) (step i x s)
      have h2 := h1 i x s
      simp only [List.length_cons]
      omega
    · simp only [if_true]
      simp only [List.length_cons]
      omega

theorem batchLoop_sum_eq {α : Type} (c : Nat → Bool) (step : Nat → α → RunState → RunState)
    (h1 : ∀ i x s, sumStats ((step i x s).stats) = sumStats s.stats + 1) :
    ∀ (l : List α) (i : Nat) (s : RunState),
      (∀ j, i ≤ j → j < i + l.length → c j = false) →
      sumStats ((batchLoop c step l i s).stats) = sumStats s.stats + l.length := by
  intro l
  induction l with
  | nil => intro i s _; simp [batchLoop]
  | cons x rest ih =>
    intro i s hc
    have hci : c i = false :=
      hc i (Nat.le_refl i) (by simp only [List.length_cons]; omega)
    simp only [batchLoop, hci, Bool.false_eq_true, if_false]
    have := ih (i + 1) (step i x s) (fun j hj1 hj2 => by
      refine hc j (by omega) ?_
      simp only [List.length_cons]
      omega)
    have h2 := h1 i x s
    simp only [List.length_cons]
    omega

theorem batchLoop_total {α : Type} (c : Nat → Bool) (step : Nat → α → RunState → RunState)
    (h1 : ∀ i x s, ((step i x s).stats).total = s.stats.total) :
    ∀ (l : List α) (i : Nat) (s : RunState),
      ((batchLoop c step l i s).stats).total = s.stats.total := by
  intro l
  induction l with
  | nil => intro i s; simp [batchLoop]
  | cons x rest ih =>
    intro i s
    simp only [batchLoop]
    cases hc : c i
    · simp only [Bool.false_eq_true, if_false]
      rw [ih (i + 1) (step i x s), h1 i x s]
    · simp

/-- When the flag is unset for the first `k` checks and set at the
`k`-th, the loop behaves exactly like the loop over the first `k`
items. -/
theorem batchLoop_cancel_take {α : Type} (c : Nat → Bool)
    (step : Nat → α → RunState → RunState) :
    ∀ (l : List α) (k i : Nat) (s : RunState),
      (∀ j, j < k → c (i + j) = false) → c (i + k) = true →
      batchLoop c step l i s = batchLoop c step (l.take k) i s := by
  intro l
  induction l with
  | nil => intro k i s _ _; simp [List.take_nil]
  | cons x rest ih =>
    intro k i s hlt hk
    cases k with
    | zero =>
      have hc : c i = true := by simpa using hk
      simp [batchLoop, hc]
    | succ k0 =>
      have h0 : c i = false := by simpa using hlt 0 (Nat.succ_pos k0)
      simp only [List.take_succ_cons, batchLoop, h0, Bool.false_eq_true, if_false]
      refine ih k0 (i + 1) (step i x s) (fun j hj => ?_) ?_
      · have heq : i + 1 + j = i + (j + 1) := by omega
        rw [heq]
        exact hlt (j + 1) (by omega)
      · have heq : i + 1 + k0 = i + (k0 + 1) := by omega
        rw [heq]
        exact hk

/-- With the flag never set, the loop splits over list append. -/
theorem batchLoop_append {α : Type} (c : Nat → Bool) (step : Nat → α → RunState → RunState)
    (hc : ∀ j, c j = false) :
    ∀ (xs ys : List α) (i : Nat) (s : RunState),
      batchLoop c step (xs ++ ys) i s
        = batchLoop c step ys (i + xs.length) (batchLoop c step xs i s) := by
  intro xs
  induction xs with
  | nil => intro ys i s; simp [batchLoop]
  | cons x rest ih =>
    intro ys i s
    simp only [List.cons_append, batchLoop, hc i, Bool.false_eq_true, if_false,
      List.length_cons]
    have heq : i + 1 + rest.length = i + (rest.length + 1) := by omega
    rw [show rest.append ys = rest ++ ys from rfl, ih ys (i + 1) (step i x s), heq]

/-- A projection that no consulted step changes is unchanged by the
loop. -/
theorem batchLoop_count_const {α : Type} (c : Nat → Bool)
    (step : Nat → α → RunState → RunState) (e : Event) :
    ∀ (l : List α) (i : Nat) (s : RunState),
      (∀ j x s', i ≤ j → j < i + l.length →
        List.count e ((step j x s').trace) = List.count e s'.trace) →
      List.count e ((batchLoop c step l i s).trace) = List.count e s.trace := by
  intro l
  induction l with
  | nil => intro i s _; simp [batchLoop]
  | cons x rest ih =>
    intro i s h
    simp only [batchLoop]
    cases hc : c i
    · simp only [Bool.false_eq_true, if_false]
      rw [ih (i + 1) (step i x s) (fun j y s' hj1 hj2 => by
        refine h j y s' (by omega) ?_
        simp only [List.length_cons]
        omega)]
      exact h i x s (Nat.le_refl i) (by simp only [List.length_cons]; omega)
    · simp

theorem batchLoop_failed_mono {α : Type} (c : Nat → Bool)
    (step : Nat → α → RunState → RunState)
    (h1 : ∀ i x s, s.stats.failed ≤ ((step i x s).stats).failed) :
    ∀ (l : List α) (i : Nat) (s : RunState),
      s.stats.failed ≤ ((batchLoop c step l i s).stats).failed := by
  intro l
  induction l with
  | nil => intro i s; simp [batchLoop]
  | cons x rest ih =>
    intro i s
    simp only [batchLoop]
    cases hc : c i
    · simp only [Bool.false_eq_true, if_false]
      exact Nat.le_trans (h1 i x s) (ih (i + 1) (step i x s))
    · simp

theorem batchLoop_fs_mono {α : Type} (c : Nat → Bool)
    (step : Nat → α → RunState → RunState)
    (h1 : ∀ i x s p, p ∈ s.fs → p ∈ ((step i x s).fs)) :
    ∀ (l : List α) (i : Nat) (s : RunState) (p : String),
      p ∈ s.fs → p ∈ ((batchLoop c step l i s).fs) := by
  intro l
  induction l with
  | nil => intro i s p hp; simpa [batchLoop] using hp
  | cons x rest ih =>
    intro i s p hp
    simp only [batchLoop]
    cases hc : c i
    · simp only [Bool.false_eq_true, if_false]
      exact ih (i + 1) (step i x s) p (h1 i x s p hp)
    · simpa

theorem mode1Step_sum (env : Env) (oF : String) (st : GifSettings) (t : Bool)
    (total i : Nat) (v : String) (s : RunState) :
    sumStats ((mode1Step env oF st t total i v s).stats) = sumStats s.stats + 1 := by
  simp only [mode1Step]
  split_ifs <;> simp [sumStats] <;> omega

theorem mode1Step_total (env : Env) (oF : String) (st : GifSettings) (t : Bool)
    (total i : Nat) (v : String) (s : RunState) :
    ((mode1Step env oF st t total i v s).stats).total = s.stats.total := by
  simp only [mode1Step]
  split_ifs <;> simp

theorem mode1Step_failed_mono (env : Env) (oF : String) (st : GifSettings) (t : Bool)
    (total i : Nat) (v : String) (s : RunState) :
    s.stats.failed ≤ ((mode1Step env oF st t total i v s).stats).failed := by
  simp only [mode1Step]
  split_ifs <;> simp

theorem mode1Step_fs_mono (env : Env) (oF : String) (st : GifSettings) (t : Bool)
    (total i : Nat) (v : String) (s : RunState) (p : String) (hp : p ∈ s.fs) :
    p ∈ ((mode1Step env oF st t total i v s).fs) := by
  simp only [mode1Step]
  split_ifs <;> simp [hp]

theorem mode1Step_trace_mono (env : Env) (oF : String) (st : GifSettings) (t : Bool)
    (total i : Nat) (v : String) (s : RunState) (e : Event) (he : e ∈ s.trace) :
    e ∈ ((mode1Step env oF st t total i v s).trace) := by
  simp only [mode1Step]
  split_ifs <;> simp [he]

theorem mode2Step_sum (env : Env) (oF : String) (st : GifSettings) (t : Bool)
    (total i : Nat) (g : String × List String) (s : RunState) :
    sumStats ((mode2Step env oF st t total i g s).stats) = sumStats s.stats + 1 := by
  simp only [mode2Step]
  split_ifs <;> simp [sumStats] <;> omega

theorem mode2Step_total (env : Env) (oF : String) (st : GifSettings) (t : Bool)
    (total i : Nat) (g : String × List String) (s : RunState) :
    ((mode2Step env oF st t total i g s).stats).total = s.stats.total := by
  simp only [mode2Step]
  split_ifs <;> simp

theorem mode3Step_sum (env : Env) (oF : String) (st : GifSettings) (t : Bool)
    (total i : Nat) (g : String) (s : RunState) :
    sumStats ((mode3Step env oF st t total i g s).stats) = sumStats s.stats + 1 := by
  simp only [mode3Step]
  split_ifs <;> simp [sumStats] <;> omega

theorem mode3Step_total (env : Env) (oF : String) (st : GifSettings) (t : Bool)
    (total i : Nat) (g : String) (s : RunState) :
    ((mode3Step env oF st t total i g s).stats).total = s.stats.total := by
  simp only [mode3Step]
  split_ifs <;> simp

theorem mode3Step_failed_mono (env : Env) (oF : String) (st : GifSettings) (t : Bool)
    (total i : Nat) (g : String) (s : RunState) :
    s.stats.failed ≤ ((mode3Step env oF st t total i g s).stats).failed := by
  simp only [mode3Step]
  split_ifs <;> simp

theorem mode3Step_fs_mono (env : Env) (oF : String) (st : GifSettings) (t : Bool)
    (total i : Nat) (g : String) (s : RunState) (p : String) (hp : p ∈ s.fs) :
    p ∈ ((mode3Step env oF st t total i g s).fs) := by
  simp only [mode3Step]
  split_ifs <;> simp [hp]

theorem batchLoop_trace_mono {α : Type} (c : Nat → Bool)
    (step : Nat → α → RunState → RunState)
    (h1 : ∀ i x s e, e ∈ s.trace → e ∈ ((step i x s).trace)) :
    ∀ (l : List α) (i : Nat) (s : RunState) (e : Event),
      e ∈ s.trace → e ∈ ((batchLoop c step l i s).trace) := by
  intro l
  induction l with
  | nil => intro i s e he; simpa [batchLoop] using he
  | cons x rest ih =>
    intro i s e he
    simp only [batchLoop]
    cases hc : c i
    · simp only [Bool.false_eq_true, if_false]
      exact ih (i + 1) (step i x s) e (h1 i x s e he)
    · simpa

/-! ## Demo environments used by witnesses and counterexamples -/

/-- Environment in which every tool call succeeds and cancellation is
never requested. -/
def envAllOk : Env :=
  ⟨fun _ => (true, ["frame_0001.png"]), fun _ => true, fun _ => true, fun _ => false⟩

/-- Environment in which frame extraction fails for every video. -/
def envExtractFail : Env :=
  ⟨fun _ => (false, []), fun _ => true, fun _ => true, fun _ => false⟩

/-- A concrete settings record (`quality=70, fps=20,
keep_temp_files=True`). -/
def demoSettings : GifSettings := ⟨some 70, some 20, some true⟩

/-- Final state of an `ok` run result (with a default for the failure
case). -/
def okStateOf (r : RunResult) (d : RunState) : RunState :=
  match r with
  | .ok st => st
  | .err _ => d

/-! ## Claims about run statistics (C2) -/

/-- **C2.** In every mode, each visited non-cancelled item increments
exactly one of the three counters, so `processed + skipped + failed`
grows by at most the number of remaining items from any loop state
(hence stays `≤ total` at every point of a run, as the prefix-state
bounds make explicit), and a run that completes with the cancellation
flag never set ends with `processed + skipped + failed = total`. -/
theorem claim_C2_stats_invariant :
    (∀ (env : Env) (oF : String) (st : GifSettings) (t : Bool) (total : Nat)
       (l : List String) (i : Nat) (s : RunState),
       sumStats ((batchLoop env.cancel (mode1Step env oF st t total) l i s).stats)
         ≤ sumStats s.stats + l.length)
  ∧ (∀ (env : Env) (oF : String) (st : GifSettings) (t : Bool) (total : Nat)
       (l : List (String × List String)) (i : Nat) (s : RunState),
       sumStats ((batchLoop env.cancel (mode2Step env oF st t total) l i s).stats)
         ≤ sumStats s.stats + l.length)
  ∧ (∀ (env : Env) (oF : String) (st : GifSettings) (t : Bool) (total : Nat)
       (l : List String) (i : Nat) (s : RunState),
       sumStats ((batchLoop env.cancel (mode3Step env oF st t total) l i s).stats)
         ≤ sumStats s.stats + l.length)
  ∧ (∀ (env : Env) (listing : List String) (iF oF : String) (st : GifSettings) (t : Bool)
       (fs0 temp0 : List String) (k : Nat),
       sumStats ((batchLoop env.cancel
           (mode1Step env oF st t (mode1RunItems listing iF oF t).length)
           ((mode1RunItems listing iF oF t).take k) 0
           (initState (mode1RunItems listing iF oF t).length fs0 temp0)).stats)
         ≤ (mode1RunItems listing iF oF t).length)
  ∧ (∀ (env : Env) (listing : List String) (oF : String) (st : GifSettings) (t : Bool)
       (fs0 temp0 : List String) (k : Nat),
       sumStats ((batchLoop env.cancel
           (mode2Step env oF st t (mode2RunItems listing t).length)
           ((mode2RunItems listing t).take k) 0
           (initState (mode2RunItems listing t).length fs0 temp0)).stats)
         ≤ (mode2RunItems listing t).length)
  ∧ (∀ (env : Env) (listing : List String) (oF : String) (st : GifSettings) (t : Bool)
       (fs0 temp0 : List String) (k : Nat),
       sumStats ((batchLoop env.cancel
           (mode3Step env oF st t (mode3RunItems listing t).length)
           ((mode3RunItems listing t).take k) 0
           (initState (mode3RunItems listing t).length fs0 temp0)).stats)
         ≤ (mode3RunItems listing t).length)
  ∧ (∀ (env : Env) (listing : List String) (iF oF : String) (st : GifSettings) (t : Bool)
       (fs0 temp0 : List String) (st' : RunState),
       (∀ j, env.cancel j = false) →
       process_mode1_video_to_gif env listing iF oF st t fs0 temp0 = RunResult.ok st' →
       sumStats st'.stats = st'.stats.total)
  ∧ (∀ (env : Env) (listing : List String) (iF oF : String) (st : GifSettings) (t : Bool)
       (fs0 temp0 : List String) (st' : RunState),
       (∀ j, env.cancel j = false) →
       process_mode2_images_to_gif env listing iF oF st t fs0 temp0 = RunResult.ok st' →
       sumStats st'.stats = st'.stats.total)
  ∧ (∀ (env : Env) (listing : List String) (iF oF : String) (st : GifSettings) (t : Bool)
       (fs0 temp0 : List String) (st' : RunState),
       (∀ j, env.cancel j = false) →
       process_mode3_optimize_gif env listing iF oF st t fs0 temp0 = RunResult.ok st' →
       sumStats st'.stats = st'.stats.total) := by
  refine ⟨?_, ?_, ?_, ?_, ?_, ?_, ?_, ?_, ?_⟩
  · intro env oF st t total l i s
    exact batchLoop_sum_le env.cancel _ (fun i x s => mode1Step_sum env oF st t total i x s) l i s
  · intro env oF st t total l i s
    exact batchLoop_sum_le env.cancel _ (fun i x s => mode2Step_sum env oF st t total i x s) l i s
  · intro env oF st t total l i s
    exact batchLoop_sum_le env.cancel _ (fun i x s => mode3Step_sum env oF st t total i x s) l i s
  · intro env listing iF oF st t fs0 temp0 k
    have h := batchLoop_sum_le env.cancel _
      (fun i x s => mode1Step_sum env oF st t (mode1RunItems listing iF oF t).length i x s)
      ((mode1RunItems listing iF oF t).take k) 0
      (initState (mode1RunItems listing iF oF t).length fs0 temp0)
    have h2 : ((mode1RunItems listing iF oF t).take k).length
        ≤ (mode1RunItems listing iF oF t).length := by
      simp [List.length_take]
    simp only [initState, sumStats] at h ⊢
    omega
  · intro env listing oF st t fs0 temp0 k
    have h := batchLoop_sum_le env.cancel _
      (fun i x s => mode2Step_sum env oF st t (mode2RunItems listing t).length i x s)
      ((mode2RunItems listing t).take k) 0
      (initState (mode2RunItems listing t).length fs0 temp0)
    have h2 : ((mode2RunItems listing t).take k).length ≤ (mode2RunItems listing t).length := by
      simp [List.length_take]
    simp only [initState, sumStats] at h ⊢
    omega
  · intro env listing oF st t fs0 temp0 k
    have h := batchLoop_sum_le env.cancel _
      (fun i x s => mode3Step_sum env oF st t (mode3RunItems listing t).length i x s)
      ((mode3RunItems listing t).take k) 0
      (initState (mode3RunItems listing t).length fs0 temp0)
    have h2 : ((mode3RunItems listing t).take k).length ≤ (mode3RunItems listing t).length := by
      simp [List.length_take]
    simp only [initState, sumStats] at h ⊢
    omega
  · intro env listing iF oF st t fs0 temp0 st' hc hok
    simp only [process_mode1_video_to_gif] at hok
    split at hok
    · simp at hok
    · simp only [RunResult.ok.injEq] at hok
      subst hok
      rw [batchLoop_sum_eq env.cancel _ (fun i x s => mode1Step_sum env oF st t _ i x s) _ _ _
        (fun j _ _ => hc j)]
      rw [batchLoop_total env.cancel _ (fun i x s => mode1Step_total env oF st t _ i x s)]
      simp [initState, sumStats]
  · intro env listing iF oF st t fs0 temp0 st' hc hok
    simp only [process_mode2_images_to_gif] at hok
    split at hok
    · simp at hok
    · split at hok
      · simp at hok
      · simp only [RunResult.ok.injEq] at hok
        subst hok
        rw [batchLoop_sum_eq env.cancel _ (fun i x s => mode2Step_sum env oF st t _ i x s) _ _ _
          (fun j _ _ => hc j)]
        rw [batchLoop_total env.cancel _ (fun i x s => mode2Step_total env oF st t _ i x s)]
        simp [initState, sumStats]
  · intro env listing iF oF st t fs0 temp0 st' hc hok
    simp only [process_mode3_optimize_gif] at hok
    split at hok
    · simp at hok
    · simp only [RunResult.ok.injEq] at hok
      subst hok
      rw [batchLoop_sum_eq env.cancel _ (fun i x s => mode3Step_sum env oF st t _ i x s) _ _ _
        (fun j _ _ => hc j)]
      rw [batchLoop_total env.cancel _ (fun i x s => mode3Step_total env oF st t _ i x s)]
      simp [initState, sumStats]

/-- Witness for C2: a concrete completed mode-1 run over two videos
ends with `processed + skipped + failed = total`. -/
theorem claim_C2_stats_invariant_witness :
    sumStats (okStateOf
      (process_mode1_video_to_gif envAllOk ["a.mp4", "b.mp4"] "in" "out" demoSettings
        false [] []) (initState 0 [] [])).stats
    = (okStateOf
      (process_mode1_video_to_gif envAllOk ["a.mp4", "b.mp4"] "in" "out" demoSettings
        false [] []) (initState 0 [] [])).stats.total :=
  claim_C2_stats_invariant.2.2.2.2.2.2.1 envAllOk ["a.mp4", "b.mp4"] "in" "out" demoSettings
    false [] []
    (okStateOf
      (process_mode1_video_to_gif envAllOk ["a.mp4", "b.mp4"] "in" "out" demoSettings
        false [] []) (initState 0 [] []))
    (fun _ => rfl) (by decide)

/-! ## Claim about cooperative cancellation (C3) -/

/-- Environment in which the cancellation flag becomes set after the
first item has been visited. -/
def envCancelAfter1 : Env :=
  ⟨fun _ => (true, ["frame_0001.png"]), fun _ => true, fun _ => true, fun i => decide (1 ≤ i)⟩

/-- **C3.** When the cancellation flag is first observed set at the
top of iteration `k` (unset for the first `k` checks), a run in any
mode equals the run over only the first `k` work items: no later item
is visited (no adapter call, counter increment or callback for it),
the outcome is still a success, and the final statistics satisfy
`processed + skipped + failed = k`. -/
theorem claim_C3_cancellation_stops_loop :
    (∀ (env : Env) (listing : List String) (iF oF : String) (st : GifSettings) (t : Bool)
       (fs0 temp0 : List String) (k : Nat),
       (∀ j, j < k → env.cancel j = false) → env.cancel k = true →
       k < (mode1RunItems listing iF oF t).length →
       process_mode1_video_to_gif env listing iF oF st t fs0 temp0
         = RunResult.ok (batchLoop env.cancel
             (mode1Step env oF st t (mode1RunItems listing iF oF t).length)
             ((mode1RunItems listing iF oF t).take k) 0
             (initState (mode1RunItems listing iF oF t).length fs0 temp0))
       ∧ sumStats ((batchLoop env.cancel
             (mode1Step env oF st t (mode1RunItems listing iF oF t).length)
             ((mode1RunItems listing iF oF t).take k) 0
             (initState (mode1RunItems listing iF oF t).length fs0 temp0)).stats) = k)
  ∧ (∀ (env : Env) (listing : List String) (iF oF : String) (st : GifSettings) (t : Bool)
       (fs0 temp0 : List String) (k : Nat),
       (∀ j, j < k → env.cancel j = false) → env.cancel k = true →
       k < (mode2RunItems listing t).length →
       process_mode2_images_to_gif env listing iF oF st t fs0 temp0
         = RunResult.ok (batchLoop env.cancel
             (mode2Step env oF st t (mode2RunItems listing t).length)
             ((mode2RunItems listing t).take k) 0
             (initState (mode2RunItems listing t).length fs0 temp0))
       ∧ sumStats ((batchLoop env.cancel
             (mode2Step env oF st t (mode2RunItems listing t).length)
             ((mode2RunItems listing t).take k) 0
             (initState (mode2RunItems listing t).length fs0 temp0)).stats) = k)
  ∧ (∀ (env : Env) (listing : List String) (iF oF : String) (st : GifSettings) (t : Bool)
       (fs0 temp0 : List String) (k : Nat),
       (∀ j, j < k → env.cancel j = false) → env.cancel k = true →
       k < (mode3RunItems listing t).length →
       process_mode3_optimize_gif env listing iF oF st t fs0 temp0
         = RunResult.ok (batchLoop env.cancel
             (mode3Step env oF st t (mode3RunItems listing t).length)
             ((mode3RunItems listing t).take k) 0
             (initState (mode3RunItems listing t).length fs0 temp0))
       ∧ sumStats ((batchLoop env.cancel
             (mode3Step env oF st t (mode3RunItems listing t).length)
             ((mode3RunItems listing t).take k) 0
             (initState (mode3RunItems listing t).length fs0 temp0)).stats) = k) := by
  refine ⟨?_, ?_, ?_⟩
  · intro env listing iF oF st t fs0 temp0 k hlt hk hklen
    have hne : (mode1Items listing iF oF).isEmpty = false := by
      cases he : (mode1Items listing iF oF).isEmpty
      · rfl
      · exfalso
        have : mode1Items listing iF oF = [] := by
          simpa [List.isEmpty_iff] using he
        have : mode1RunItems listing iF oF t = [] := by
          simp [mode1RunItems, this]
        rw [this] at hklen
        simp at hklen
    have htake : ((mode1RunItems listing iF oF t).take k).length = k := by
      simp [List.length_take]
      omega
    constructor
    · simp only [process_mode1_video_to_gif, hne, Bool.false_eq_true, if_false]
      rw [batchLoop_cancel_take env.cancel _ (mode1RunItems listing iF oF t) k 0 _
        (fun j hj => by simpa using hlt j hj) (by simpa using hk)]
    · rw [batchLoop_sum_eq env.cancel _ (fun i x s => mode1Step_sum env oF st t _ i x s) _ _ _
        (fun j hj1 hj2 => by
          refine hlt j ?_
          rw [htake] at hj2
          omega)]
      simp [initState, sumStats, htake]
  · intro env listing iF oF st t fs0 temp0 k hlt hk hklen
    have hne1 : (scan_for_images listing).isEmpty = false := by
      cases he : (scan_for_images listing).isEmpty
      · rfl
      · exfalso
        have h0 : scan_for_images listing = [] := by
          simpa [List.isEmpty_iff] using he
        have : mode2RunItems listing t = [] := by
          simp [mode2RunItems, h0, group_images_by_name]
        rw [this] at hklen
        simp at hklen
    have hne2 : (group_images_by_name (scan_for_images listing)).isEmpty = false := by
      cases he : (group_images_by_name (scan_for_images listing)).isEmpty
      · rfl
      · exfalso
        have h0 : group_images_by_name (scan_for_images listing) = [] := by
          simpa [List.isEmpty_iff] using he
        have : mode2RunItems listing t = [] := by
          simp [mode2RunItems, h0]
        rw [this] at hklen
        simp at hklen
    have htake : ((mode2RunItems listing t).take k).length = k := by
      simp [List.length_take]
      omega
    constructor
    · simp only [process_mode2_images_to_gif, hne1, hne2, Bool.false_eq_true, if_false]
      rw [batchLoop_cancel_take env.cancel _ (mode2RunItems listing t) k 0 _
        (fun j hj => by simpa using hlt j hj) (by simpa using hk)]
    · rw [batchLoop_sum_eq env.cancel _ (fun i x s => mode2Step_sum env oF st t _ i x s) _ _ _
        (fun j hj1 hj2 => by
          refine hlt j ?_
          rw [htake] at hj2
          omega)]
      simp [initState, sumStats, htake]
  · intro env listing iF oF st t fs0 temp0 k hlt hk hklen
    have hne : (scan_for_gifs listing).isEmpty = false := by
      cases he : (scan_for_gifs listing).isEmpty
      · rfl
      · exfalso
        have h0 : scan_for_gifs listing = [] := by
          simpa [List.isEmpty_iff] using he
        have : mode3RunItems listing t = [] := by
          simp [mode3RunItems, h0]
        rw [this] at hklen
        simp at hklen
    have htake : ((mode3RunItems listing t).take k).length = k := by
      simp [List.length_take]
      omega
    constructor
    · simp only [process_mode3_optimize_gif, hne, Bool.false_eq_true, if_false]
      rw [batchLoop_cancel_take env.cancel _ (mode3RunItems listing t) k 0 _
        (fun j hj => by simpa using hlt j hj) (by simpa using hk)]
    · rw [batchLoop_sum_eq env.cancel _ (fun i x s => mode3Step_sum env oF st t _ i x s) _ _ _
        (fun j hj1 hj2 => by
          refine hlt j ?_
          rw [htake] at hj2
          omega)]
      simp [initState, sumStats, htake]

/-- Witness for C3: cancelling after the first of two videos makes the
run equal to the one-item prefix run, with counter sum 1. -/
theorem claim_C3_cancellation_stops_loop_witness :
    process_mode1_video_to_gif envCancelAfter1 ["a.mp4", "b.mp4"] "in" "out" demoSettings
        false [] []
      = RunResult.ok (batchLoop envCancelAfter1.cancel
          (mode1Step envCancelAfter1 "out" demoSettings false
            (mode1RunItems ["a.mp4", "b.mp4"] "in" "out" false).length)
          ((mode1RunItems ["a.mp4", "b.mp4"] "in" "out" false).take 1) 0
          (initState (mode1RunItems ["a.mp4", "b.mp4"] "in" "out" false).length [] []))
    ∧ sumStats ((batchLoop envCancelAfter1.cancel
          (mode1Step envCancelAfter1 "out" demoSettings false
            (mode1RunItems ["a.mp4", "b.mp4"] "in" "out" false).length)
          ((mode1RunItems ["a.mp4", "b.mp4"] "in" "out" false).take 1) 0
          (initState (mode1RunItems ["a.mp4", "b.mp4"] "in" "out" false).length [] [])).stats)
      = 1 :=
  claim_C3_cancellation_stops_loop.1 envCancelAfter1 ["a.mp4", "b.mp4"] "in" "out"
    demoSettings false [] [] 1
    (fun j hj => by
      have hj0 : j = 0 := by omega
      subst hj0
      rfl)
    (by rfl) (by decide)

/-! ## Claim about mode-3 output naming (C7) -/

/-- **C7.** Mode-3 output naming is a pure function of the input stem,
quality, fps and the test flag: with `quality=70, fps=20`, input
`clip.gif` is written to `clip_optim_70q_20fps.gif` in a bulk run and
to `test_clip_optim_70q_20fps.gif` in a test run, under every input
and output folder. -/
theorem claim_C7_mode3_output_naming :
    (∀ output_folder : String,
      mode3OutPath output_folder demoSettings false "clip.gif"
        = output_folder ++ "/" ++ "clip_optim_70q_20fps.gif"
      ∧ mode3OutPath output_folder demoSettings true "clip.gif"
        = output_folder ++ "/" ++ "test_clip_optim_70q_20fps.gif")
    ∧ mode3OutputName (pyStem "clip.gif") 70 20 false = "clip_optim_70q_20fps.gif"
    ∧ mode3OutputName (pyStem "clip.gif") 70 20 true = "test_clip_optim_70q_20fps.gif" := by
  refine ⟨fun output_folder => ⟨rfl, rfl⟩, by decide, by decide⟩

/-! ## Claim about image grouping (C8) -/

/-- **C8.** Grouping strips one trailing numeric suffix
(`[_\-\s]\(?digits\)?$`, else a trailing `\s+digits$`) from each stem
to obtain the base name, and keeps each group's members in ascending
natural order: the four-file example yields exactly the two groups
`anim` and `walk`, each with its two members in ascending numeric
order. -/
theorem claim_C8_image_grouping :
    group_images_by_name ["anim_001.png", "anim_002.png", "walk (1).png", "walk (2).png"]
      = [("anim", ["anim_001.png", "anim_002.png"]),
         ("walk", ["walk (1).png", "walk (2).png"])]
    ∧ imageBaseName (pyStem "anim_001.png") = "anim"
    ∧ imageBaseName (pyStem "anim_002.png") = "anim"
    ∧ imageBaseName (pyStem "walk (1).png") = "walk"
    ∧ imageBaseName (pyStem "walk (2).png") = "walk"
    ∧ natLt "walk (1).png" "walk (2).png" = true
    ∧ natLt "anim_001.png" "anim_002.png" = true := by
  refine ⟨by decide, by decide, by decide, by decide, by decide, by decide, by decide⟩

/-! ## Counting progress callbacks per visited item (C1) -/

theorem mode1ExtractFails_iff (env : Env) (v : String) :
    mode1ExtractFails env v = true ↔ ((env.extract v).1 = false ∨ (env.extract v).2 = []) := by
  simp [mode1ExtractFails]

theorem mode1Step_count_progress_ne (env : Env) (oF : String) (st : GifSettings) (t : Bool)
    (total i n : Nat) (v : String) (s : RunState) (hn : n ≠ i + 1) :
    List.count (Event.progress n total) ((mode1Step env oF st t total i v s).trace)
      = List.count (Event.progress n total) s.trace := by
  simp only [mode1Step]
  split_ifs <;>
    simp [List.count_append, List.count_cons, hn, Ne.symm hn]

theorem mode1Step_count_progress_skip (env : Env) (oF : String) (st : GifSettings) (t : Bool)
    (total i : Nat) (v : String) (s : RunState)
    (h : t = false ∧ mode1OutPath oF t v ∈ s.fs) :
    List.count (Event.progress (i + 1) total) ((mode1Step env oF st t total i v s).trace)
      = List.count (Event.progress (i + 1) total) s.trace + 1 := by
  simp only [mode1Step, if_pos h]
  simp [List.count_append, List.count_cons]

theorem mode1Step_count_progress_extract_fail (env : Env) (oF : String) (st : GifSettings)
    (t : Bool) (total i : Nat) (v : String) (s : RunState)
    (h : ¬(t = false ∧ mode1OutPath oF t v ∈ s.fs))
    (hf : mode1ExtractFails env v = true) :
    List.count (Event.progress (i + 1) total) ((mode1Step env oF st t total i v s).trace)
      = List.count (Event.progress (i + 1) total) s.trace := by
  rw [mode1ExtractFails_iff] at hf
  simp only [mode1Step, if_neg h, if_pos hf]
  simp [List.count_append, List.count_cons]

theorem mode1Step_count_progress_attempt (env : Env) (oF : String) (st : GifSettings)
    (t : Bool) (total i : Nat) (v : String) (s : RunState)
    (h : ¬(t = false ∧ mode1OutPath oF t v ∈ s.fs))
    (hf : mode1ExtractFails env v = false) :
    List.count (Event.progress (i + 1) total) ((mode1Step env oF st t total i v s).trace)
      = List.count (Event.progress (i + 1) total) s.trace + 1 := by
  have hf2 : ¬((env.extract v).1 = false ∨ (env.extract v).2 = []) := by
    intro hcontra
    rw [← mode1ExtractFails_iff env v] at hcontra
    rw [hf] at hcontra
    exact absurd hcontra (by simp)
  simp only [mode1Step, if_neg h, if_neg hf2]
  split_ifs <;> simp [List.count_append, List.count_cons]

theorem mode2Step_count_progress_ne (env : Env) (oF : String) (st : GifSettings) (t : Bool)
    (total i n : Nat) (g : String × List String) (s : RunState) (hn : n ≠ i + 1) :
    List.count (Event.progress n total) ((mode2Step env oF st t total i g s).trace)
      = List.count (Event.progress n total) s.trace := by
  simp only [mode2Step]
  split_ifs <;>
    simp [List.count_append, List.count_cons, hn, Ne.symm hn]

theorem mode2Step_count_progress_self (env : Env) (oF : String) (st : GifSettings) (t : Bool)
    (total i : Nat) (g : String × List String) (s : RunState) :
    List.count (Event.progress (i + 1) total) ((mode2Step env oF st t total i g s).trace)
      = List.count (Event.progress (i + 1) total) s.trace + 1 := by
  simp only [mode2Step]
  split_ifs <;> simp [List.count_append, List.count_cons]

theorem mode3Step_count_progress_ne (env : Env) (oF : String) (st : GifSettings) (t : Bool)
    (total i n : Nat) (g : String) (s : RunState) (hn : n ≠ i + 1) :
    List.count (Event.progress n total) ((mode3Step env oF st t total i g s).trace)
      = List.count (Event.progress n total) s.trace := by
  simp only [mode3Step]
  split_ifs <;>
    simp [List.count_append, List.count_cons, hn, Ne.symm hn]

theorem mode3Step_count_progress_self (env : Env) (oF : String) (st : GifSettings) (t : Bool)
    (total i : Nat) (g : String) (s : RunState) :
    List.count (Event.progress (i + 1) total) ((mode3Step env oF st t total i g s).trace)
      = List.count (Event.progress (i + 1) total) s.trace + 1 := by
  simp only [mode3Step]
  split_ifs <;> simp [List.count_append, List.count_cons]

theorem take_getElem_drop {α : Type} (l : List α) (i : Nat) (h : i < l.length) :
    l = l.take i ++ l.get ⟨i, h⟩ :: l.drop (i + 1) := by
  induction l generalizing i with
  | nil => simp at h
  | cons a rest ih =>
    cases i with
    | zero => simp
    | succ i0 =>
      simp only [List.take_succ_cons, List.get_cons_succ, List.drop_succ_cons,
        List.cons_append, List.cons.injEq, true_and]
      exact ih i0 (by simpa using h)

theorem mode1_loop_count_progress (env : Env) (oF : String) (st : GifSettings) (t : Bool)
    (total : Nat) (fs0 temp0 : List String) (l : List String) (i : Nat) (hi : i < l.length)
    (hc : ∀ j, env.cancel j = false) :
    List.count (Event.progress (i + 1) total)
      ((batchLoop env.cancel (mode1Step env oF st t total) l 0
        (initState total fs0 temp0)).trace)
    = (if ¬(t = false ∧ mode1OutPath oF t (l.get ⟨i, hi⟩)
            ∈ (batchLoop env.cancel (mode1Step env oF st t total) (l.take i) 0
                (initState total fs0 temp0)).fs)
         ∧ mode1ExtractFails env (l.get ⟨i, hi⟩) = true
       then 0 else 1) := by
  have hlen : (l.take i).length = i := by
    simp [List.length_take]
    omega
  have hpre0 : List.count (Event.progress (i + 1) total)
      ((batchLoop env.cancel (mode1Step env oF st t total) (l.take i) 0
        (initState total fs0 temp0)).trace) = 0 := by
    rw [batchLoop_count_const env.cancel _ _ (l.take i) 0 _ (fun j x s' hj1 hj2 => by
      refine mode1Step_count_progress_ne env oF st t total j (i + 1) x s' ?_
      rw [hlen] at hj2
      omega)]
    simp [initState]
  conv_lhs => rw [take_getElem_drop l i hi]
  rw [batchLoop_append env.cancel _ hc (l.take i) _ 0 _]
  rw [show (0 + (l.take i).length) = i from by rw [hlen]; omega]
  simp only [batchLoop, hc i, Bool.false_eq_true, if_false]
  rw [batchLoop_count_const env.cancel _ _ (l.drop (i + 1)) (i + 1) _
    (fun j x s' hj1 hj2 => by
      refine mode1Step_count_progress_ne env oF st t total j (i + 1) x s' ?_
      omega)]
  by_cases hskip : (t = false ∧ mode1OutPath oF t (l.get ⟨i, hi⟩)
      ∈ (batchLoop env.cancel (mode1Step env oF st t total) (l.take i) 0
          (initState total fs0 temp0)).fs)
  · rw [mode1Step_count_progress_skip env oF st t total i _ _ hskip, hpre0]
    rw [if_neg (fun hcond => hcond.1 hskip)]
  · cases hfail : mode1ExtractFails env (l.get ⟨i, hi⟩)
    · rw [mode1Step_count_progress_attempt env oF st t total i _ _ hskip hfail, hpre0]
      rw [if_neg (by simp)]
    · rw [mode1Step_count_progress_extract_fail env oF st t total i _ _ hskip hfail, hpre0]
      rw [if_pos ⟨hskip, rfl⟩]

theorem mode2_loop_count_progress (env : Env) (oF : String) (st : GifSettings) (t : Bool)
    (total : Nat) (fs0 temp0 : List String) (l : List (String × List String)) (i : Nat)
    (hi : i < l.length) (hc : ∀ j, env.cancel j = false) :
    List.count (Event.progress (i + 1) total)
      ((batchLoop env.cancel (mode2Step env oF st t total) l 0
        (initState total fs0 temp0)).trace) = 1 := by
  have hlen : (l.take i).length = i := by
    simp [List.length_take]
    omega
  have hpre0 : List.count (Event.progress (i + 1) total)
      ((batchLoop env.cancel (mode2Step env oF st t total) (l.take i) 0
        (initState total fs0 temp0)).trace) = 0 := by
    rw [batchLoop_count_const env.cancel _ _ (l.take i) 0 _ (fun j x s' hj1 hj2 => by
      refine mode2Step_count_progress_ne env oF st t total j (i + 1) x s' ?_
      rw [hlen] at hj2
      omega)]
    simp [initState]
  conv_lhs => rw [take_getElem_drop l i hi]
  rw [batchLoop_append env.cancel _ hc (l.take i) _ 0 _]
  rw [show (0 + (l.take i).length) = i from by rw [hlen]; omega]
  simp only [batchLoop, hc i, Bool.false_eq_true, if_false]
  rw [batchLoop_count_const env.cancel _ _ (l.drop (i + 1)) (i + 1) _
    (fun j x s' hj1 hj2 => by
      refine mode2Step_count_progress_ne env oF st t total j (i + 1) x s' ?_
      omega)]
  rw [mode2Step_count_progress_self env oF st t total i _ _, hpre0]

theorem mode3_loop_count_progress (env : Env) (oF : String) (st : GifSettings) (t : Bool)
    (total : Nat) (fs0 temp0 : List String) (l : List String) (i : Nat)
    (hi : i < l.length) (hc : ∀ j, env.cancel j = false) :
    List.count (Event.progress (i + 1) total)
      ((batchLoop env.cancel (mode3Step env oF st t total) l 0
        (initState total fs0 temp0)).trace) = 1 := by
  have hlen : (l.take i).length = i := by
    simp [List.length_take]
    omega
  have hpre0 : List.count (Event.progress (i + 1) total)
      ((batchLoop env.cancel (mode3Step env oF st t total) (l.take i) 0
        (initState total fs0 temp0)).trace) = 0 := by
    rw [batchLoop_count_const env.cancel _ _ (l.take i) 0 _ (fun j x s' hj1 hj2 => by
      refine mode3Step_count_progress_ne env oF st t total j (i + 1) x s' ?_
      rw [hlen] at hj2
      omega)]
    simp [initState]
  conv_lhs => rw [take_getElem_drop l i hi]
  rw [batchLoop_append env.cancel _ hc (l.take i) _ 0 _]
  rw [show (0 + (l.take i).length) = i from by rw [hlen]; omega]
  simp only [batchLoop, hc i, Bool.false_eq_true, if_false]
  rw [batchLoop_count_const env.cancel _ _ (l.drop (i + 1)) (i + 1) _
    (fun j x s' hj1 hj2 => by
      refine mode3Step_count_progress_ne env oF st t total j (i + 1) x s' ?_
      omega)]
  rw [mode3Step_count_progress_self env oF st t total i _ _, hpre0]

/-- **C1 (amended).** Every visited item emits exactly one progress
callback `(i, total)` in modes 2 and 3, and in mode 1 whenever the
item is skipped or reaches GIF encoding — but a mode-1 item whose
frame extraction fails emits no progress callback at all (the failure
path continues to the next item before the progress update). -/
theorem claim_C1_progress_per_item :
    (∀ (env : Env) (listing : List String) (iF oF : String) (st : GifSettings) (t : Bool)
       (fs0 temp0 : List String) (i : Nat),
       (∀ j, env.cancel j = false) →
       ∀ hi : i < (mode1RunItems listing iF oF t).length,
       List.count (Event.progress (i + 1) (mode1RunItems listing iF oF t).length)
         (traceOf (process_mode1_video_to_gif env listing iF oF st t fs0 temp0))
       = (if ¬(t = false ∧ mode1OutPath oF t ((mode1RunItems listing iF oF t).get ⟨i, hi⟩)
               ∈ (batchLoop env.cancel
                   (mode1Step env oF st t (mode1RunItems listing iF oF t).length)
                   ((mode1RunItems listing iF oF t).take i) 0
                   (initState (mode1RunItems listing iF oF t).length fs0 temp0)).fs)
            ∧ mode1ExtractFails env ((mode1RunItems listing iF oF t).get ⟨i, hi⟩) = true
          then 0 else 1))
  ∧ (∀ (env : Env) (listing : List String) (iF oF : String) (st : GifSettings) (t : Bool)
       (fs0 temp0 : List String) (i : Nat),
       (∀ j, env.cancel j = false) →
       i < (mode2RunItems listing t).length →
       List.count (Event.progress (i + 1) (mode2RunItems listing t).length)
         (traceOf (process_mode2_images_to_gif env listing iF oF st t fs0 temp0)) = 1)
  ∧ (∀ (env : Env) (listing : List String) (iF oF : String) (st : GifSettings) (t : Bool)
       (fs0 temp0 : List String) (i : Nat),
       (∀ j, env.cancel j = false) →
       i < (mode3RunItems listing t).length →
       List.count (Event.progress (i + 1) (mode3RunItems listing t).length)
         (traceOf (process_mode3_optimize_gif env listing iF oF st t fs0 temp0)) = 1) := by
  refine ⟨?_, ?_, ?_⟩
  · intro env listing iF oF st t fs0 temp0 i hc hi
    have hne : (mode1Items listing iF oF).isEmpty = false := by
      cases he : (mode1Items listing iF oF).isEmpty
      · rfl
      · exfalso
        have h0 : mode1Items listing iF oF = [] := by
          simpa [List.isEmpty_iff] using he
        have h1 : mode1RunItems listing iF oF t = [] := by
          simp [mode1RunItems, h0]
        rw [h1] at hi
        simp at hi
    simp only [process_mode1_video_to_gif, hne, Bool.false_eq_true, if_false, traceOf]
    exact mode1_loop_count_progress env oF st t _ fs0 temp0 _ i hi hc
  · intro env listing iF oF st t fs0 temp0 i hc hi
    have hne1 : (scan_for_images listing).isEmpty = false := by
      cases he : (scan_for_images listing).isEmpty
      · rfl
      · exfalso
        have h0 : scan_for_images listing = [] := by
          simpa [List.isEmpty_iff] using he
        have h1 : mode2RunItems listing t = [] := by
          simp [mode2RunItems, h0, group_images_by_name]
        rw [h1] at hi
        simp at hi
    have hne2 : (group_images_by_name (scan_for_images listing)).isEmpty = false := by
      cases he : (group_images_by_name (scan_for_images listing)).isEmpty
      · rfl
      · exfalso
        have h0 : group_images_by_name (scan_for_images listing) = [] := by
          simpa [List.isEmpty_iff] using he
        have h1 : mode2RunItems listing t = [] := by
          simp [mode2RunItems, h0]
        rw [h1] at hi
        simp at hi
    simp only [process_mode2_images_to_gif, hne1, hne2, Bool.false_eq_true, if_false, traceOf]
    exact mode2_loop_count_progress env oF st t _ fs0 temp0 _ i hi hc
  · intro env listing iF oF st t fs0 temp0 i hc hi
    have hne : (scan_for_gifs listing).isEmpty = false := by
      cases he : (scan_for_gifs listing).isEmpty
      · rfl
      · exfalso
        have h0 : scan_for_gifs listing = [] := by
          simpa [List.isEmpty_iff] using he
        have h1 : mode3RunItems listing t = [] := by
          simp [mode3RunItems, h0]
        rw [h1] at hi
        simp at hi
    simp only [process_mode3_optimize_gif, hne, Bool.false_eq_true, if_false, traceOf]
    exact mode3_loop_count_progress env oF st t _ fs0 temp0 _ i hi hc

/-- Witness for the amended C1: in a concrete completed mode-3 run the
single item emits exactly one progress callback. -/
theorem claim_C1_progress_per_item_witness :
    List.count (Event.progress (0 + 1) (mode3RunItems ["clip.gif"] false).length)
      (traceOf (process_mode3_optimize_gif envAllOk ["clip.gif"] "in" "out" demoSettings
        false [] [])) = 1 :=
  claim_C1_progress_per_item.2.2 envAllOk ["clip.gif"] "in" "out" demoSettings false [] [] 0
    (fun _ => rfl) (by decide)

/-- Counterexample to C1 as stated: in a mode-1 bulk run over the
single video `a.mp4` whose frame extraction fails, the item is
visited (its extraction is invoked) yet no `(1, 1)` progress callback
is ever emitted. -/
theorem claim_C1_counterexample :
    List.count (Event.progress 1 1)
      (traceOf (process_mode1_video_to_gif envExtractFail ["a.mp4"] "in" "out" demoSettings
        false [] [])) = 0
    ∧ Event.extractCall "a.mp4"
        ∈ traceOf (process_mode1_video_to_gif envExtractFail ["a.mp4"] "in" "out" demoSettings
            false [] [])
    ∧ statsOf (process_mode1_video_to_gif envExtractFail ["a.mp4"] "in" "out" demoSettings
        false [] []) = ⟨1, 0, 0, 1⟩ := by
  refine ⟨by decide, by decide, by decide⟩

/-! ## Runs without skips: per-item attempt accounting (C4, C6) -/

theorem length_filter_not_add {α : Type} (p : α → Bool) (l : List α) :
    (l.filter p).length + (l.filter (fun a => !p a)).length = l.length := by
  induction l with
  | nil => simp
  | cons a rest ih =>
    cases hp : p a <;> simp [List.filter_cons, hp] <;> omega

theorem filter_eq_singleton_of_unique {α : Type} [DecidableEq α] (p : α → Bool)
    (l : List α) (f : α) (hnd : l.Nodup) (hf : f ∈ l)
    (huniq : ∀ v, v ∈ l → (p v = true ↔ v = f)) :
    l.filter p = [f] := by
  induction l with
  | nil => simp at hf
  | cons a rest ih =>
    have hnd2 := List.nodup_cons.mp hnd
    by_cases hfa : f = a
    · subst hfa
      have hpa : p f = true := (huniq f (by simp)).mpr rfl
      have hrest : rest.filter p = [] := by
        rw [List.filter_eq_nil_iff]
        intro v hv
        intro hpv
        have := (huniq v (by simp [hv])).mp hpv
        subst this
        exact hnd2.1 hv
      simp [List.filter_cons, hpa, hrest]
    · have hpa : p a = false := by
        cases hpa : p a
        · rfl
        · exact absurd ((huniq a (by simp)).mp hpa) (fun h => hfa h.symm)
      have hfr : f ∈ rest := by
        cases List.mem_cons.mp hf with
        | inl h => exact absurd h hfa
        | inr h => exact h
      simp only [List.filter_cons, hpa, Bool.false_eq_true, if_false]
      exact ih hnd2.2 hfr (fun v hv => huniq v (by simp [hv]))

theorem mode1Step_noskip (env : Env) (oF : String) (st : GifSettings) (t : Bool)
    (total i : Nat) (v : String) (s : RunState)
    (h : mode1OutPath oF t v ∉ s.fs) :
    ((mode1Step env oF st t total i v s).stats).processed
        = s.stats.processed + (if mode1ItemFails env v then 0 else 1)
    ∧ ((mode1Step env oF st t total i v s).stats).failed
        = s.stats.failed + (if mode1ItemFails env v then 1 else 0)
    ∧ ((mode1Step env oF st t total i v s).stats).skipped = s.stats.skipped
    ∧ Event.extractCall v ∈ ((mode1Step env oF st t total i v s).trace)
    ∧ (∀ p, p ∈ ((mode1Step env oF st t total i v s).fs) →
        p ∈ s.fs ∨ p = mode1OutPath oF t v)
    ∧ List.count Event.cleanupTemp ((mode1Step env oF st t total i v s).trace)
        = List.count Event.cleanupTemp s.trace
          + (if mode1ExtractFails env v then 1
             else (if st.keep_temp_files.getD true then 0 else 1)) := by
  have hns : ¬(t = false ∧ mode1OutPath oF t v ∈ s.fs) := fun hc => h hc.2
  by_cases hx : ((env.extract v).1 = false ∨ (env.extract v).2 = [])
  · have hxf : mode1ExtractFails env v = true := (mode1ExtractFails_iff env v).mpr hx
    have hif : mode1ItemFails env v = true := by
      simp [mode1ItemFails, hxf]
    simp only [mode1Step, if_neg hns, if_pos hx, hxf, hif]
    refine ⟨by simp, by simp, by simp, by simp, fun p hp => Or.inl (by simpa using hp), ?_⟩
    simp [List.count_append, List.count_cons]
  · have hxf : mode1ExtractFails env v = false := by
      cases hc : mode1ExtractFails env v
      · rfl
      · exact absurd ((mode1ExtractFails_iff env v).mp hc) hx
    have hif : mode1ItemFails env v = !(env.encode v) := by
      simp [mode1ItemFails, hxf]
    simp only [mode1Step, if_neg hns, if_neg hx, hxf, hif]
    cases hsucc : env.encode v <;> cases hkeep : st.keep_temp_files.getD true <;>
      simp only [hkeep, Bool.not_false, Bool.not_true, Bool.false_eq_true, if_false, if_true] <;>
      refine ⟨by simp, by simp, by simp, by simp, fun p hp => by
          first
          | exact Or.inl hp
          | (rw [List.mem_append] at hp
             rcases hp with hp | hp
             · exact Or.inl hp
             · exact Or.inr (by simpa using hp))
          , ?_⟩ <;>
      simp [List.count_append, List.count_cons]

theorem mode1_noskip_loop (env : Env) (oF : String) (st : GifSettings) (t : Bool)
    (total : Nat) :
    ∀ (l : List String) (i : Nat) (s : RunState),
      (∀ j, env.cancel j = false) →
      (∀ v, v ∈ l → mode1OutPath oF t v ∉ s.fs) →
      ((l.map (fun v => mode1OutPath oF t v)).Nodup) →
      ((batchLoop env.cancel (mode1Step env oF st t total) l i s).stats).processed
          = s.stats.processed + (l.filter (fun v => !mode1ItemFails env v)).length
      ∧ ((batchLoop env.cancel (mode1Step env oF st t total) l i s).stats).failed
          = s.stats.failed + (l.filter (fun v => mode1ItemFails env v)).length
      ∧ ((batchLoop env.cancel (mode1Step env oF st t total) l i s).stats).skipped
          = s.stats.skipped
      ∧ (∀ v, v ∈ l → Event.extractCall v
          ∈ ((batchLoop env.cancel (mode1Step env oF st t total) l i s).trace))
      ∧ (∀ p, p ∈ ((batchLoop env.cancel (mode1Step env oF st t total) l i s).fs) →
          p ∈ s.fs ∨ ∃ v, v ∈ l ∧ p = mode1OutPath oF t v)
      ∧ List.count Event.cleanupTemp
            ((batchLoop env.cancel (mode1Step env oF st t total) l i s).trace)
          = List.count Event.cleanupTemp s.trace
            + (l.filter (fun v => mode1ExtractFails env v)).length
            + (if st.keep_temp_files.getD true then 0
               else (l.filter (fun v => !mode1ExtractFails env v)).length) := by
  intro l
  induction l with
  | nil =>
    intro i s _ _ _
    simp [batchLoop]
  | cons v rest ih =>
    intro i s hc hout hnd
    rw [List.map_cons] at hnd
    have hnd2 := List.nodup_cons.mp hnd
    have hv0 : mode1OutPath oF t v ∉ s.fs := hout v (by simp)
    have hstep := mode1Step_noskip env oF st t total i v s hv0
    have hrest_out : ∀ w, w ∈ rest →
        mode1OutPath oF t w ∉ (mode1Step env oF st t total i v s).fs := by
      intro w hw hmem
      rcases hstep.2.2.2.2.1 _ hmem with hin | heq
      · exact hout w (by simp [hw]) hin
      · apply hnd2.1
        rw [← heq]
        exact List.mem_map_of_mem _ hw
    have ih2 := ih (i + 1) (mode1Step env oF st t total i v s) hc hrest_out hnd2.2
    simp only [batchLoop, hc i, Bool.false_eq_true, if_false]
    obtain ⟨ih_p, ih_f, ih_s, ih_e, ih_fs, ih_c⟩ := ih2
    obtain ⟨hs_p, hs_f, hs_s, hs_e, hs_fs, hs_c⟩ := hstep
    refine ⟨?_, ?_, ?_, ?_, ?_, ?_⟩
    · rw [ih_p, hs_p]
      cases hfv : mode1ItemFails env v <;> simp [List.filter_cons, hfv] <;> omega
    · rw [ih_f, hs_f]
      cases hfv : mode1ItemFails env v <;> simp [List.filter_cons, hfv] <;> omega
    · rw [ih_s, hs_s]
    · intro w hw
      rcases List.mem_cons.mp hw with hww | hww
      · subst hww
        exact batchLoop_trace_mono env.cancel _
          (fun a b cz e he => mode1Step_trace_mono env oF st t total a b cz e he)
          rest (i + 1) _ _ hs_e
      · exact ih_e w hww
    · intro p hp
      rcases ih_fs p hp with hin | ⟨w, hw, hpw⟩
      · rcases hs_fs p hin with hin2 | heq
        · exact Or.inl hin2
        · exact Or.inr ⟨v, by simp, heq⟩
      · exact Or.inr ⟨w, by simp [hw], hpw⟩
    · rw [ih_c, hs_c]
      cases hxv : mode1ExtractFails env v <;>
        cases hkeep : st.keep_temp_files.getD true <;>
        simp [List.filter_cons, hxv, hkeep] <;> omega

/-- Whether a mode-2 group's encode fails. -/
def mode2ItemFails (env : Env) (g : String × List String) : Bool := !(env.encode g.1)

/-- Whether a mode-3 item's optimize fails. -/
def mode3ItemFails (env : Env) (g : String) : Bool := !(env.optimize g)

theorem mode2Step_trace_mono (env : Env) (oF : String) (st : GifSettings) (t : Bool)
    (total i : Nat) (g : String × List String) (s : RunState) (e : Event)
    (he : e ∈ s.trace) : e ∈ ((mode2Step env oF st t total i g s).trace) := by
  simp only [mode2Step]
  split_ifs <;> simp [he]

theorem mode3Step_trace_mono (env : Env) (oF : String) (st : GifSettings) (t : Bool)
    (total i : Nat) (g : String) (s : RunState) (e : Event)
    (he : e ∈ s.trace) : e ∈ ((mode3Step env oF st t total i g s).trace) := by
  simp only [mode3Step]
  split_ifs <;> simp [he]

theorem mode2Step_noskip (env : Env) (oF : String) (st : GifSettings) (t : Bool)
    (total i : Nat) (g : String × List String) (s : RunState)
    (h : mode2OutPath oF t g.1 ∉ s.fs) :
    ((mode2Step env oF st t total i g s).stats).processed
        = s.stats.processed + (if mode2ItemFails env g then 0 else 1)
    ∧ ((mode2Step env oF st t total i g s).stats).failed
        = s.stats.failed + (if mode2ItemFails env g then 1 else 0)
    ∧ ((mode2Step env oF st t total i g s).stats).skipped = s.stats.skipped
    ∧ Event.encodeCall g.1 ∈ ((mode2Step env oF st t total i g s).trace)
    ∧ (∀ p, p ∈ ((mode2Step env oF st t total i g s).fs) →
        p ∈ s.fs ∨ p = mode2OutPath oF t g.1) := by
  have hns : ¬(t = false ∧ mode2OutPath oF t g.1 ∈ s.fs) := fun hc => h hc.2
  simp only [mode2Step, if_neg hns, mode2ItemFails]
  refine ⟨?_, ?_, ?_, ?_, ?_⟩
  · split_ifs <;> simp_all
  · split_ifs <;> simp_all
  · split_ifs <;> simp_all
  · split_ifs <;> simp
  · intro p hp
    split at hp
    · rw [List.mem_append] at hp
      rcases hp with hp | hp
      · exact Or.inl hp
      · exact Or.inr (by simpa using hp)
    · exact Or.inl hp

theorem mode3Step_noskip (env : Env) (oF : String) (st : GifSettings) (t : Bool)
    (total i : Nat) (g : String) (s : RunState)
    (h : mode3OutPath oF st t g ∉ s.fs) :
    ((mode3Step env oF st t total i g s).stats).processed
        = s.stats.processed + (if mode3ItemFails env g then 0 else 1)
    ∧ ((mode3Step env oF st t total i g s).stats).failed
        = s.stats.failed + (if mode3ItemFails env g then 1 else 0)
    ∧ ((mode3Step env oF st t total i g s).stats).skipped = s.stats.skipped
    ∧ Event.optimizeCall g ∈ ((mode3Step env oF st t total i g s).trace)
    ∧ (∀ p, p ∈ ((mode3Step env oF st t total i g s).fs) →
        p ∈ s.fs ∨ p = mode3OutPath oF st t g) := by
  have hns : ¬(t = false ∧ mode3OutPath oF st t g ∈ s.fs) := fun hc => h hc.2
  simp only [mode3Step, if_neg hns, mode3ItemFails]
  refine ⟨?_, ?_, ?_, ?_, ?_⟩
  · split_ifs <;> simp_all
  · split_ifs <;> simp_all
  · split_ifs <;> simp_all
  · split_ifs <;> simp
  · intro p hp
    split at hp
    · rw [List.mem_append] at hp
      rcases hp with hp | hp
      · exact Or.inl hp
      · exact Or.inr (by simpa using hp)
    · exact Or.inl hp

theorem mode2_noskip_loop (env : Env) (oF : String) (st : GifSettings) (t : Bool)
    (total : Nat) :
    ∀ (l : List (String × List String)) (i : Nat) (s : RunState),
      (∀ j, env.cancel j = false) →
      (∀ g, g ∈ l → mode2OutPath oF t g.1 ∉ s.fs) →
      ((l.map (fun g => mode2OutPath oF t g.1)).Nodup) →
      ((batchLoop env.cancel (mode2Step env oF st t total) l i s).stats).processed
          = s.stats.processed + (l.filter (fun g => !mode2ItemFails env g)).length
      ∧ ((batchLoop env.cancel (mode2Step env oF st t total) l i s).stats).failed
          = s.stats.failed + (l.filter (fun g => mode2ItemFails env g)).length
      ∧ ((batchLoop env.cancel (mode2Step env oF st t total) l i s).stats).skipped
          = s.stats.skipped
      ∧ (∀ g, g ∈ l → Event.encodeCall g.1
          ∈ ((batchLoop env.cancel (mode2Step env oF st t total) l i s).trace))
      ∧ (∀ p, p ∈ ((batchLoop env.cancel (mode2Step env oF st t total) l i s).fs) →
          p ∈ s.fs ∨ ∃ g, g ∈ l ∧ p = mode2OutPath oF t g.1) := by
  intro l
  induction l with
  | nil =>
    intro i s _ _ _
    simp [batchLoop]
  | cons v rest ih =>
    intro i s hc hout hnd
    rw [List.map_cons] at hnd
    have hnd2 := List.nodup_cons.mp hnd
    have hv0 : mode2OutPath oF t v.1 ∉ s.fs := hout v (by simp)
    have hstep := mode2Step_noskip env oF st t total i v s hv0
    have hrest_out : ∀ w, w ∈ rest →
        mode2OutPath oF t w.1 ∉ (mode2Step env oF st t total i v s).fs := by
      intro w hw hmem
      rcases hstep.2.2.2.2 _ hmem with hin | heq
      · exact hout w (by simp [hw]) hin
      · apply hnd2.1
        rw [← heq]
        exact List.mem_map_of_mem _ hw
    have ih2 := ih (i + 1) (mode2Step env oF st t total i v s) hc hrest_out hnd2.2
    simp only [batchLoop, hc i, Bool.false_eq_true, if_false]
    obtain ⟨ih_p, ih_f, ih_s, ih_e, ih_fs⟩ := ih2
    obtain ⟨hs_p, hs_f, hs_s, hs_e, hs_fs⟩ := hstep
    refine ⟨?_, ?_, ?_, ?_, ?_⟩
    · rw [ih_p, hs_p]
      cases hfv : mode2ItemFails env v <;> simp [List.filter_cons, hfv] <;> omega
    · rw [ih_f, hs_f]
      cases hfv : mode2ItemFails env v <;> simp [List.filter_cons, hfv] <;> omega
    · rw [ih_s, hs_s]
    · intro w hw
      rcases List.mem_cons.mp hw with hww | hww
      · subst hww
        exact batchLoop_trace_mono env.cancel _
          (fun a b cz e he => mode2Step_trace_mono env oF st t total a b cz e he)
          rest (i + 1) _ _ hs_e
      · exact ih_e w hww
    · intro p hp
      rcases ih_fs p hp with hin | ⟨w, hw, hpw⟩
      · rcases hs_fs p hin with hin2 | heq
        · exact Or.inl hin2
        · exact Or.inr ⟨v, by simp, heq⟩
      · exact Or.inr ⟨w, by simp [hw], hpw⟩

theorem mode3_noskip_loop (env : Env) (oF : String) (st : GifSettings) (t : Bool)
    (total : Nat) :
    ∀ (l : List String) (i : Nat) (s : RunState),
      (∀ j, env.cancel j = false) →
      (∀ g, g ∈ l → mode3OutPath oF st t g ∉ s.fs) →
      ((l.map (fun g => mode3OutPath oF st t g)).Nodup) →
      ((batchLoop env.cancel (mode3Step env oF st t total) l i s).stats).processed
          = s.stats.processed + (l.filter (fun g => !mode3ItemFails env g)).length
      ∧ ((batchLoop env.cancel (mode3Step env oF st t total) l i s).stats).failed
          = s.stats.failed + (l.filter (fun g => mode3ItemFails env g)).length
      ∧ ((batchLoop env.cancel (mode3Step env oF st t total) l i s).stats).skipped
          = s.stats.skipped
      ∧ (∀ g, g ∈ l → Event.optimizeCall g
          ∈ ((batchLoop env.cancel (mode3Step env oF st t total) l i s).trace))
      ∧ (∀ p, p ∈ ((batchLoop env.cancel (mode3Step env oF st t total) l i s).fs) →
          p ∈ s.fs ∨ ∃ g, g ∈ l ∧ p = mode3OutPath oF st t g) := by
  intro l
  induction l with
  | nil =>
    intro i s _ _ _
    simp [batchLoop]
  | cons v rest ih =>
    intro i s hc hout hnd
    rw [List.map_cons] at hnd
    have hnd2 := List.nodup_cons.mp hnd
    have hv0 : mode3OutPath oF st t v ∉ s.fs := hout v (by simp)
    have hstep := mode3Step_noskip env oF st t total i v s hv0
    have hrest_out : ∀ w, w ∈ rest →
        mode3OutPath oF st t w ∉ (mode3Step env oF st t total i v s).fs := by
      intro w hw hmem
      rcases hstep.2.2.2.2 _ hmem with hin | heq
      · exact hout w (by simp [hw]) hin
      · apply hnd2.1
        rw [← heq]
        exact List.mem_map_of_mem _ hw
    have ih2 := ih (i + 1) (mode3Step env oF st t total i v s) hc hrest_out hnd2.2
    simp only [batchLoop, hc i, Bool.false_eq_true, if_false]
    obtain ⟨ih_p, ih_f, ih_s, ih_e, ih_fs⟩ := ih2
    obtain ⟨hs_p, hs_f, hs_s, hs_e, hs_fs⟩ := hstep
    refine ⟨?_, ?_, ?_, ?_, ?_⟩
    · rw [ih_p, hs_p]
      cases hfv : mode3ItemFails env v <;> simp [List.filter_cons, hfv] <;> omega
    · rw [ih_f, hs_f]
      cases hfv : mode3ItemFails env v <;> simp [List.filter_cons, hfv] <;> omega
    · rw [ih_s, hs_s]
    · intro w hw
      rcases List.mem_cons.mp hw with hww | hww
      · subst hww
        exact batchLoop_trace_mono env.cancel _
          (fun a b cz e he => mode3Step_trace_mono env oF st t total a b cz e he)
          rest (i + 1) _ _ hs_e
      · exact ih_e w hww
    · intro p hp
      rcases ih_fs p hp with hin | ⟨w, hw, hpw⟩
      · rcases hs_fs p hin with hin2 | heq
        · exact Or.inl hin2
        · exact Or.inr ⟨v, by simp, heq⟩
      · exact Or.inr ⟨w, by simp [hw], hpw⟩

/-- Environment in which only the GIF encoding of `b.mp4` fails. -/
def envFailB : Env :=
  ⟨fun _ => (true, ["frame_0001.png"]), fun v => decide (v ≠ "b.mp4"), fun _ => true,
    fun _ => false⟩

/-- **C4.** A run in which the adapter operation of exactly one of the
(distinctly named, not previously produced) work items fails still
returns a success outcome with `failed = 1`, `skipped = 0` and
`processed = N - 1`, and every item — the failing one included — has
its adapter invoked. -/
theorem claim_C4_per_item_failure_isolated :
    (∀ (env : Env) (listing : List String) (iF oF : String) (st : GifSettings) (t : Bool)
       (fs0 temp0 : List String) (f : String) (st' : RunState),
       (∀ j, env.cancel j = false) →
       (∀ v, v ∈ mode1RunItems listing iF oF t → mode1OutPath oF t v ∉ fs0) →
       ((mode1RunItems listing iF oF t).map (fun v => mode1OutPath oF t v)).Nodup →
       f ∈ mode1RunItems listing iF oF t →
       (∀ v, v ∈ mode1RunItems listing iF oF t → (mode1ItemFails env v = true ↔ v = f)) →
       process_mode1_video_to_gif env listing iF oF st t fs0 temp0 = RunResult.ok st' →
       st'.stats.failed = 1
       ∧ st'.stats.processed = (mode1RunItems listing iF oF t).length - 1
       ∧ st'.stats.skipped = 0
       ∧ (∀ v, v ∈ mode1RunItems listing iF oF t → Event.extractCall v ∈ st'.trace))
  ∧ (∀ (env : Env) (listing : List String) (iF oF : String) (st : GifSettings) (t : Bool)
       (fs0 temp0 : List String) (f : String × List String) (st' : RunState),
       (∀ j, env.cancel j = false) →
       (∀ g, g ∈ mode2RunItems listing t → mode2OutPath oF t g.1 ∉ fs0) →
       ((mode2RunItems listing t).map (fun g => mode2OutPath oF t g.1)).Nodup →
       f ∈ mode2RunItems listing t →
       (∀ g, g ∈ mode2RunItems listing t → (mode2ItemFails env g = true ↔ g = f)) →
       process_mode2_images_to_gif env listing iF oF st t fs0 temp0 = RunResult.ok st' →
       st'.stats.failed = 1
       ∧ st'.stats.processed = (mode2RunItems listing t).length - 1
       ∧ st'.stats.skipped = 0
       ∧ (∀ g, g ∈ mode2RunItems listing t → Event.encodeCall g.1 ∈ st'.trace))
  ∧ (∀ (env : Env) (listing : List String) (iF oF : String) (st : GifSettings) (t : Bool)
       (fs0 temp0 : List String) (f : String) (st' : RunState),
       (∀ j, env.cancel j = false) →
       (∀ g, g ∈ mode3RunItems listing t → mode3OutPath oF st t g ∉ fs0) →
       ((mode3RunItems listing t).map (fun g => mode3OutPath oF st t g)).Nodup →
       f ∈ mode3RunItems listing t →
       (∀ g, g ∈ mode3RunItems listing t → (mode3ItemFails env g = true ↔ g = f)) →
       process_mode3_optimize_gif env listing iF oF st t fs0 temp0 = RunResult.ok st' →
       st'.stats.failed = 1
       ∧ st'.stats.processed = (mode3RunItems listing t).length - 1
       ∧ st'.stats.skipped = 0
       ∧ (∀ g, g ∈ mode3RunItems listing t → Event.optimizeCall g ∈ st'.trace)) := by
  refine ⟨?_, ?_, ?_⟩
  · intro env listing iF oF st t fs0 temp0 f st' hc hout hnd hf huniq hok
    simp only [process_mode1_video_to_gif] at hok
    split at hok
    · simp at hok
    · simp only [RunResult.ok.injEq] at hok
      subst hok
      have hloop := mode1_noskip_loop env oF st t (mode1RunItems listing iF oF t).length
        (mode1RunItems listing iF oF t) 0
        (initState (mode1RunItems listing iF oF t).length fs0 temp0) hc
        (by simpa [initState] using hout) hnd
      have hone : (mode1RunItems listing iF oF t).filter (fun v => mode1ItemFails env v)
          = [f] :=
        filter_eq_singleton_of_unique _ _ f (List.Nodup.of_map _ hnd) hf huniq
      have hsum := length_filter_not_add (fun v => mode1ItemFails env v)
        (mode1RunItems listing iF oF t)
      refine ⟨?_, ?_, ?_, ?_⟩
      · rw [hloop.2.1, hone]
        simp [initState]
      · rw [hloop.1]
        rw [hone] at hsum
        simp [initState]
        simp at hsum
        omega
      · rw [hloop.2.2.1]
        simp [initState]
      · exact hloop.2.2.2.1
  · intro env listing iF oF st t fs0 temp0 f st' hc hout hnd hf huniq hok
    simp only [process_mode2_images_to_gif] at hok
    split at hok
    · simp at hok
    · split at hok
      · simp at hok
      · simp only [RunResult.ok.injEq] at hok
        subst hok
        have hloop := mode2_noskip_loop env oF st t (mode2RunItems listing t).length
          (mode2RunItems listing t) 0
          (initState (mode2RunItems listing t).length fs0 temp0) hc
          (by simpa [initState] using hout) hnd
        have hone : (mode2RunItems listing t).filter (fun g => mode2ItemFails env g) = [f] :=
          filter_eq_singleton_of_unique _ _ f (List.Nodup.of_map _ hnd) hf huniq
        have hsum := length_filter_not_add (fun g => mode2ItemFails env g)
          (mode2RunItems listing t)
        refine ⟨?_, ?_, ?_, ?_⟩
        · rw [hloop.2.1, hone]
          simp [initState]
        · rw [hloop.1]
          rw [hone] at hsum
          simp [initState]
          simp at hsum
          omega
        · rw [hloop.2.2.1]
          simp [initState]
        · exact hloop.2.2.2.1
  · intro env listing iF oF st t fs0 temp0 f st' hc hout hnd hf huniq hok
    simp only [process_mode3_optimize_gif] at hok
    split at hok
    · simp at hok
    · simp only [RunResult.ok.injEq] at hok
      subst hok
      have hloop := mode3_noskip_loop env oF st t (mode3RunItems listing t).length
        (mode3RunItems listing t) 0
        (initState (mode3RunItems listing t).length fs0 temp0) hc
        (by simpa [initState] using hout) hnd
      have hone : (mode3RunItems listing t).filter (fun g => mode3ItemFails env g) = [f] :=
        filter_eq_singleton_of_unique _ _ f (List.Nodup.of_map _ hnd) hf huniq
      have hsum := length_filter_not_add (fun g => mode3ItemFails env g)
        (mode3RunItems listing t)
      refine ⟨?_, ?_, ?_, ?_⟩
      · rw [hloop.2.1, hone]
        simp [initState]
      · rw [hloop.1]
        rw [hone] at hsum
        simp [initState]
        simp at hsum
        omega
      · rw [hloop.2.2.1]
        simp [initState]
      · exact hloop.2.2.2.1

/-- Witness for C4: with two videos of which only `b.mp4` fails to
encode, the bulk run succeeds with `failed = 1`, `processed = 1`,
`skipped = 0`, both items attempted. -/
theorem claim_C4_per_item_failure_isolated_witness :
    (okStateOf (process_mode1_video_to_gif envFailB ["a.mp4", "b.mp4"] "in" "out"
        demoSettings false [] []) (initState 0 [] [])).stats.failed = 1
    ∧ (okStateOf (process_mode1_video_to_gif envFailB ["a.mp4", "b.mp4"] "in" "out"
        demoSettings false [] []) (initState 0 [] [])).stats.processed
      = (mode1RunItems ["a.mp4", "b.mp4"] "in" "out" false).length - 1
    ∧ (okStateOf (process_mode1_video_to_gif envFailB ["a.mp4", "b.mp4"] "in" "out"
        demoSettings false [] []) (initState 0 [] [])).stats.skipped = 0
    ∧ (∀ v, v ∈ mode1RunItems ["a.mp4", "b.mp4"] "in" "out" false →
        Event.extractCall v
          ∈ (okStateOf (process_mode1_video_to_gif envFailB ["a.mp4", "b.mp4"] "in" "out"
              demoSettings false [] []) (initState 0 [] [])).trace) :=
  claim_C4_per_item_failure_isolated.1 envFailB ["a.mp4", "b.mp4"] "in" "out" demoSettings
    false [] [] "b.mp4"
    (okStateOf (process_mode1_video_to_gif envFailB ["a.mp4", "b.mp4"] "in" "out"
      demoSettings false [] []) (initState 0 [] []))
    (fun _ => rfl)
    (fun v hv => by
      have hl : mode1RunItems ["a.mp4", "b.mp4"] "in" "out" false = ["a.mp4", "b.mp4"] := by
        decide
      rw [hl] at hv
      simp)
    (by decide)
    (by decide)
    (fun v hv => by
      have hl : mode1RunItems ["a.mp4", "b.mp4"] "in" "out" false = ["a.mp4", "b.mp4"] := by
        decide
      rw [hl] at hv
      rcases List.mem_cons.mp hv with h | h
      · subst h
        decide
      · have h2 : v = "b.mp4" := by simpa using h
        subst h2
        decide)
    (by decide)

/-- Environment in which frame extraction succeeds for `a.mp4` and
fails for `b.mp4`. -/
def envExtractFailB : Env :=
  ⟨fun v => if v = "b.mp4" then (false, []) else (true, ["frame_0001.png"]),
    fun _ => true, fun _ => true, fun _ => false⟩

/-- **C6 (amended).** In a mode-1 run (without skips), the temp folder
is cleared after the encode step exactly when `keep_temp_files` is
false — but it is additionally cleared, unconditionally and
regardless of `keep_temp_files`, every time an item's frame
extraction fails; so with `keepTempFiles` set, previously kept frames
are still deleted whenever a later extraction fails. -/
theorem claim_C6_keep_temp_files :
    ∀ (env : Env) (listing : List String) (iF oF : String) (st : GifSettings) (t : Bool)
      (fs0 temp0 : List String) (st' : RunState),
      (∀ j, env.cancel j = false) →
      (∀ v, v ∈ mode1RunItems listing iF oF t → mode1OutPath oF t v ∉ fs0) →
      ((mode1RunItems listing iF oF t).map (fun v => mode1OutPath oF t v)).Nodup →
      process_mode1_video_to_gif env listing iF oF st t fs0 temp0 = RunResult.ok st' →
      List.count Event.cleanupTemp st'.trace
        = ((mode1RunItems listing iF oF t).filter
            (fun v => mode1ExtractFails env v)).length
          + (if st.keep_temp_files.getD true then 0
             else ((mode1RunItems listing iF oF t).filter
                (fun v => !mode1ExtractFails env v)).length) := by
  intro env listing iF oF st t fs0 temp0 st' hc hout hnd hok
  simp only [process_mode1_video_to_gif] at hok
  split at hok
  · simp at hok
  · simp only [RunResult.ok.injEq] at hok
    subst hok
    have hloop := mode1_noskip_loop env oF st t (mode1RunItems listing iF oF t).length
      (mode1RunItems listing iF oF t) 0
      (initState (mode1RunItems listing iF oF t).length fs0 temp0) hc
      (by simpa [initState] using hout) hnd
    rw [hloop.2.2.2.2.2]
    simp [initState]

/-- Witness for the amended C6: with `keep_temp_files=True`, one good
video and one failing extraction, exactly one temp cleanup happens
(caused by the failure alone). -/
theorem claim_C6_keep_temp_files_witness :
    List.count Event.cleanupTemp
      (okStateOf (process_mode1_video_to_gif envExtractFailB ["a.mp4", "b.mp4"] "in" "out"
        demoSettings false [] []) (initState 0 [] [])).trace
    = ((mode1RunItems ["a.mp4", "b.mp4"] "in" "out" false).filter
        (fun v => mode1ExtractFails envExtractFailB v)).length
      + (if demoSettings.keep_temp_files.getD true then 0
         else ((mode1RunItems ["a.mp4", "b.mp4"] "in" "out" false).filter
            (fun v => !mode1ExtractFails envExtractFailB v)).length) :=
  claim_C6_keep_temp_files envExtractFailB ["a.mp4", "b.mp4"] "in" "out" demoSettings
    false [] []
    (okStateOf (process_mode1_video_to_gif envExtractFailB ["a.mp4", "b.mp4"] "in" "out"
      demoSettings false [] []) (initState 0 [] []))
    (fun _ => rfl)
    (fun v hv => by
      have hl : mode1RunItems ["a.mp4", "b.mp4"] "in" "out" false = ["a.mp4", "b.mp4"] := by
        decide
      rw [hl] at hv
      simp)
    (by decide)
    (by decide)

/-- Counterexample to C6 as stated: with `keep_temp_files=True`, after
a successful extraction of `a.mp4` (one frame written and kept), the
failing extraction of `b.mp4` clears the temp folder — the kept frame
is deleted even though `keepTempFiles` is set. -/
theorem claim_C6_counterexample :
    demoSettings.keep_temp_files = some true
    ∧ Event.extractCall "a.mp4"
        ∈ traceOf (process_mode1_video_to_gif envExtractFailB ["a.mp4", "b.mp4"] "in" "out"
            demoSettings false [] [])
    ∧ Event.cleanupTemp
        ∈ traceOf (process_mode1_video_to_gif envExtractFailB ["a.mp4", "b.mp4"] "in" "out"
            demoSettings false [] [])
    ∧ tempOf (process_mode1_video_to_gif envExtractFailB ["a.mp4", "b.mp4"] "in" "out"
        demoSettings false [] []) = [] := by
  refine ⟨rfl, by decide, by decide, by decide⟩

/-! ## Idempotence of bulk runs (C5) -/

/-- The events a bulk run emits when it skips all given items: one
already-exists status message and one progress update per item. -/
def skipEvents (total : Nat) : List String → Nat → List Event
  | [], _ => []
  | v :: rest, i =>
    Event.status ("[" ++ Nat.repr (i + 1) ++ "/" ++ Nat.repr total ++ "] Skipped "
      ++ v ++ " (already exists)")
    :: Event.progress (i + 1) total :: skipEvents total rest (i + 1)

theorem skipEvents_progress_mem (total : Nat) :
    ∀ (l : List String) (i0 k : Nat), k < l.length →
      Event.progress (i0 + k + 1) total ∈ skipEvents total l i0 := by
  intro l
  induction l with
  | nil => intro i0 k hk; simp at hk
  | cons v rest ih =>
    intro i0 k hk
    cases k with
    | zero => simp [skipEvents]
    | succ k0 =>
      have := ih (i0 + 1) k0 (by simpa using hk)
      rw [show i0 + (k0 + 1) + 1 = i0 + 1 + k0 + 1 from by omega]
      simp only [skipEvents, List.mem_cons]
      exact Or.inr (Or.inr this)

theorem skipEvents_no_adapter (total : Nat) :
    ∀ (l : List String) (i0 : Nat) (e : Event), e ∈ skipEvents total l i0 →
      e.isAdapterCall = false := by
  intro l
  induction l with
  | nil => intro i0 e he; simp [skipEvents] at he
  | cons v rest ih =>
    intro i0 e he
    simp only [skipEvents, List.mem_cons] at he
    rcases he with h | h | h
    · subst h; rfl
    · subst h; rfl
    · exact ih (i0 + 1) e h

theorem mode1Step_skip (env : Env) (oF : String) (st : GifSettings) (total i : Nat)
    (v : String) (s : RunState) (h : mode1OutPath oF false v ∈ s.fs) :
    mode1Step env oF st false total i v s
      = { s with
          stats := { s.stats with skipped := s.stats.skipped + 1 },
          trace := s.trace ++
            [Event.status ("[" ++ Nat.repr (i + 1) ++ "/" ++ Nat.repr total ++ "] Skipped "
              ++ v ++ " (already exists)"),
             Event.progress (i + 1) total] } := by
  simp only [mode1Step]
  rw [if_pos ⟨trivial, h⟩]

theorem mode1_allskip_loop (env : Env) (oF : String) (st : GifSettings) (total : Nat) :
    ∀ (l : List String) (i : Nat) (s : RunState),
      (∀ j, env.cancel j = false) →
      (∀ v, v ∈ l → mode1OutPath oF false v ∈ s.fs) →
      ((batchLoop env.cancel (mode1Step env oF st false total) l i s).stats).processed
          = s.stats.processed
      ∧ ((batchLoop env.cancel (mode1Step env oF st false total) l i s).stats).skipped
          = s.stats.skipped + l.length
      ∧ ((batchLoop env.cancel (mode1Step env oF st false total) l i s).stats).failed
          = s.stats.failed
      ∧ (batchLoop env.cancel (mode1Step env oF st false total) l i s).fs = s.fs
      ∧ (batchLoop env.cancel (mode1Step env oF st false total) l i s).temp = s.temp
      ∧ (batchLoop env.cancel (mode1Step env oF st false total) l i s).trace
          = s.trace ++ skipEvents total l i := by
  intro l
  induction l with
  | nil =>
    intro i s _ _
    simp [batchLoop, skipEvents]
  | cons v rest ih =>
    intro i s hc hout
    simp only [batchLoop, hc i, Bool.false_eq_true, if_false]
    rw [mode1Step_skip env oF st total i v s (hout v (by simp))]
    have ih2 := ih (i + 1)
      { s with
        stats := { s.stats with skipped := s.stats.skipped + 1 },
        trace := s.trace ++
          [Event.status ("[" ++ Nat.repr (i + 1) ++ "/" ++ Nat.repr total ++ "] Skipped "
            ++ v ++ " (already exists)"),
           Event.progress (i + 1) total] }
      hc (fun w hw => hout w (by simp [hw]))
    obtain ⟨h1, h2, h3, h4, h5, h6⟩ := ih2
    refine ⟨by simpa using h1, by simp at h2; rw [h2]; simp [List.length_cons]; omega,
      by simpa using h3, by simpa using h4, by simpa using h5, ?_⟩
    rw [h6]
    simp [skipEvents, List.append_assoc]

theorem mode1Step_out_of_no_fail (env : Env) (oF : String) (st : GifSettings) (t : Bool)
    (total i : Nat) (v : String) (s : RunState)
    (h : ((mode1Step env oF st t total i v s).stats).failed = s.stats.failed) :
    mode1OutPath oF t v ∈ ((mode1Step env oF st t total i v s).fs) := by
  by_cases hskip : (t = false ∧ mode1OutPath oF t v ∈ s.fs)
  · simp only [mode1Step, if_pos hskip]
    exact hskip.2
  · by_cases hx : ((env.extract v).1 = false ∨ (env.extract v).2 = [])
    · exfalso
      simp only [mode1Step, if_neg hskip, if_pos hx] at h
      simp at h
    · cases hsucc : env.encode v
      · exfalso
        simp only [mode1Step, if_neg hskip, if_neg hx, hsucc] at h
        split_ifs at h <;> first | contradiction | simp at h
      · simp only [mode1Step, if_neg hskip, if_neg hx, hsucc]
        split_ifs <;> simp

theorem mode1_out_exists_loop (env : Env) (oF : String) (st : GifSettings) (t : Bool)
    (total : Nat) :
    ∀ (l : List String) (i : Nat) (s : RunState),
      (∀ j, env.cancel j = false) →
      ((batchLoop env.cancel (mode1Step env oF st t total) l i s).stats).failed
        = s.stats.failed →
      ∀ v, v ∈ l →
        mode1OutPath oF t v ∈ ((batchLoop env.cancel (mode1Step env oF st t total) l i s).fs) := by
  intro l
  induction l with
  | nil => intro i s _ _ v hv; simp at hv
  | cons w rest ih =>
    intro i s hc hf v hv
    simp only [batchLoop, hc i, Bool.false_eq_true, if_false] at hf ⊢
    have hmono1 : s.stats.failed ≤ ((mode1Step env oF st t total i w s).stats).failed :=
      mode1Step_failed_mono env oF st t total i w s
    have hmono2 : ((mode1Step env oF st t total i w s).stats).failed
        ≤ ((batchLoop env.cancel (mode1Step env oF st t total) rest (i + 1)
            (mode1Step env oF st t total i w s)).stats).failed :=
      batchLoop_failed_mono env.cancel _
        (fun a b cz => mode1Step_failed_mono env oF st t total a b cz) rest (i + 1) _
    have hstepf : ((mode1Step env oF st t total i w s).stats).failed = s.stats.failed := by
      omega
    rcases List.mem_cons.mp hv with hw | hw
    · subst hw
      exact batchLoop_fs_mono env.cancel _
        (fun a b cz p hp => mode1Step_fs_mono env oF st t total a b cz p hp) rest (i + 1) _ _
        (mode1Step_out_of_no_fail env oF st t total i v s hstepf)
    · exact ih (i + 1) (mode1Step env oF st t total i w s) hc (by omega) v hw

theorem mode3Step_skip (env : Env) (oF : String) (st : GifSettings) (total i : Nat)
    (g : String) (s : RunState) (h : mode3OutPath oF st false g ∈ s.fs) :
    mode3Step env oF st false total i g s
      = { s with
          stats := { s.stats with skipped := s.stats.skipped + 1 },
          trace := s.trace ++
            [Event.status ("[" ++ Nat.repr (i + 1) ++ "/" ++ Nat.repr total ++ "] Skipped "
              ++ g ++ " (already exists)"),
             Event.progress (i + 1) total] } := by
  simp only [mode3Step]
  rw [if_pos ⟨trivial, h⟩]

theorem mode3_allskip_loop (env : Env) (oF : String) (st : GifSettings) (total : Nat) :
    ∀ (l : List String) (i : Nat) (s : RunState),
      (∀ j, env.cancel j = false) →
      (∀ g, g ∈ l → mode3OutPath oF st false g ∈ s.fs) →
      ((batchLoop env.cancel (mode3Step env oF st false total) l i s).stats).processed
          = s.stats.processed
      ∧ ((batchLoop env.cancel (mode3Step env oF st false total) l i s).stats).skipped
          = s.stats.skipped + l.length
      ∧ ((batchLoop env.cancel (mode3Step env oF st false total) l i s).stats).failed
          = s.stats.failed
      ∧ (batchLoop env.cancel (mode3Step env oF st false total) l i s).fs = s.fs
      ∧ (batchLoop env.cancel (mode3Step env oF st false total) l i s).temp = s.temp
      ∧ (batchLoop env.cancel (mode3Step env oF st false total) l i s).trace
          = s.trace ++ skipEvents total l i := by
  intro l
  induction l with
  | nil =>
    intro i s _ _
    simp [batchLoop, skipEvents]
  | cons v rest ih =>
    intro i s hc hout
    simp only [batchLoop, hc i, Bool.false_eq_true, if_false]
    rw [mode3Step_skip env oF st total i v s (hout v (by simp))]
    have ih2 := ih (i + 1)
      { s with
        stats := { s.stats with skipped := s.stats.skipped + 1 },
        trace := s.trace ++
          [Event.status ("[" ++ Nat.repr (i + 1) ++ "/" ++ Nat.repr total ++ "] Skipped "
            ++ v ++ " (already exists)"),
           Event.progress (i + 1) total] }
      hc (fun w hw => hout w (by simp [hw]))
    obtain ⟨h1, h2, h3, h4, h5, h6⟩ := ih2
    refine ⟨by simpa using h1, by simp at h2; rw [h2]; simp [List.length_cons]; omega,
      by simpa using h3, by simpa using h4, by simpa using h5, ?_⟩
    rw [h6]
    simp [skipEvents, List.append_assoc]

theorem mode3Step_out_of_no_fail (env : Env) (oF : String) (st : GifSettings) (t : Bool)
    (total i : Nat) (g : String) (s : RunState)
    (h : ((mode3Step env oF st t total i g s).stats).failed = s.stats.failed) :
    mode3OutPath oF st t g ∈ ((mode3Step env oF st t total i g s).fs) := by
  by_cases hskip : (t = false ∧ mode3OutPath oF st t g ∈ s.fs)
  · simp only [mode3Step, if_pos hskip]
    exact hskip.2
  · cases hsucc : env.optimize g
    · exfalso
      simp only [mode3Step, if_neg hskip, hsucc] at h
      split_ifs at h <;> first | contradiction | simp at h
    · simp only [mode3Step, if_neg hskip, hsucc]
      split_ifs <;> simp

theorem mode3_out_exists_loop (env : Env) (oF : String) (st : GifSettings) (t : Bool)
    (total : Nat) :
    ∀ (l : List String) (i : Nat) (s : RunState),
      (∀ j, env.cancel j = false) →
      ((batchLoop env.cancel (mode3Step env oF st t total) l i s).stats).failed
        = s.stats.failed →
      ∀ g, g ∈ l →
        mode3OutPath oF st t g
          ∈ ((batchLoop env.cancel (mode3Step env oF st t total) l i s).fs) := by
  intro l
  induction l with
  | nil => intro i s _ _ g hg; simp at hg
  | cons w rest ih =>
    intro i s hc hf g hg
    simp only [batchLoop, hc i, Bool.false_eq_true, if_false] at hf ⊢
    have hmono1 : s.stats.failed ≤ ((mode3Step env oF st t total i w s).stats).failed :=
      mode3Step_failed_mono env oF st t total i w s
    have hmono2 : ((mode3Step env oF st t total i w s).stats).failed
        ≤ ((batchLoop env.cancel (mode3Step env oF st t total) rest (i + 1)
            (mode3Step env oF st t total i w s)).stats).failed :=
      batchLoop_failed_mono env.cancel _
        (fun a b cz => mode3Step_failed_mono env oF st t total a b cz) rest (i + 1) _
    have hstepf : ((mode3Step env oF st t total i w s).stats).failed = s.stats.failed := by
      omega
    rcases List.mem_cons.mp hg with hw | hw
    · subst hw
      exact batchLoop_fs_mono env.cancel _
        (fun a b cz p hp => mode3Step_fs_mono env oF st t total a b cz p hp) rest (i + 1) _ _
        (mode3Step_out_of_no_fail env oF st t total i g s hstepf)
    · exact ih (i + 1) (mode3Step env oF st t total i w s) hc (by omega) g hw

/-- **C5 (amended).** If a bulk (non-test) run completes with the
cancellation flag never set and `failed = 0`, then every derived
output path exists afterwards, and repeating the run on the resulting
filesystem skips every item: the second run succeeds with
`processed = 0`, `skipped = total`, `failed = 0`, an unchanged
filesystem, and a trace consisting solely of one skip status message
and one progress update per item — no adapter is invoked.  (Stated
for modes 1 and 3, the modes the skip logic is claimed for; a first
run with a failed item does not produce its output, so the proviso
`failed = 0` is necessary.) -/
theorem claim_C5_bulk_idempotent :
    (∀ (env : Env) (listing : List String) (iF oF : String) (st : GifSettings)
       (fs0 temp0 : List String) (st1 : RunState),
       (∀ j, env.cancel j = false) →
       process_mode1_video_to_gif env listing iF oF st false fs0 temp0 = RunResult.ok st1 →
       st1.stats.failed = 0 →
       (∀ v, v ∈ mode1RunItems listing iF oF false → mode1OutPath oF false v ∈ st1.fs)
       ∧ ∃ st2,
         process_mode1_video_to_gif env listing iF oF st false st1.fs st1.temp
           = RunResult.ok st2
         ∧ st2.stats.processed = 0
         ∧ st2.stats.skipped = st2.stats.total
         ∧ st2.stats.failed = 0
         ∧ st2.fs = st1.fs
         ∧ st2.trace = skipEvents (mode1RunItems listing iF oF false).length
             (mode1RunItems listing iF oF false) 0
         ∧ (∀ e, e ∈ st2.trace → e.isAdapterCall = false)
         ∧ (∀ k, k < (mode1RunItems listing iF oF false).length →
             Event.progress (k + 1) (mode1RunItems listing iF oF false).length ∈ st2.trace))
  ∧ (∀ (env : Env) (listing : List String) (iF oF : String) (st : GifSettings)
       (fs0 temp0 : List String) (st1 : RunState),
       (∀ j, env.cancel j = false) →
       process_mode3_optimize_gif env listing iF oF st false fs0 temp0 = RunResult.ok st1 →
       st1.stats.failed = 0 →
       (∀ g, g ∈ mode3RunItems listing false → mode3OutPath oF st false g ∈ st1.fs)
       ∧ ∃ st2,
         process_mode3_optimize_gif env listing iF oF st false st1.fs st1.temp
           = RunResult.ok st2
         ∧ st2.stats.processed = 0
         ∧ st2.stats.skipped = st2.stats.total
         ∧ st2.stats.failed = 0
         ∧ st2.fs = st1.fs
         ∧ st2.trace = skipEvents (mode3RunItems listing false).length
             (mode3RunItems listing false) 0
         ∧ (∀ e, e ∈ st2.trace → e.isAdapterCall = false)
         ∧ (∀ k, k < (mode3RunItems listing false).length →
             Event.progress (k + 1) (mode3RunItems listing false).length ∈ st2.trace)) := by
  constructor
  · intro env listing iF oF st fs0 temp0 st1 hc hok hfail
    simp only [process_mode1_video_to_gif] at hok
    split at hok
    · simp at hok
    · rename_i hcond
      simp only [RunResult.ok.injEq] at hok
      have houts : ∀ v, v ∈ mode1RunItems listing iF oF false →
          mode1OutPath oF false v ∈ st1.fs := by
        rw [← hok]
        refine mode1_out_exists_loop env oF st false _ _ 0 _ hc ?_
        rw [hok, hfail]
        simp [initState]
      refine ⟨houts, ?_⟩
      simp only [process_mode1_video_to_gif]
      rw [if_neg hcond]
      refine ⟨_, rfl, ?_, ?_, ?_, ?_, ?_, ?_, ?_⟩
      · have := mode1_allskip_loop env oF st (mode1RunItems listing iF oF false).length
          (mode1RunItems listing iF oF false) 0
          (initState (mode1RunItems listing iF oF false).length st1.fs st1.temp) hc
          (by simpa [initState] using houts)
        rw [this.1]
        simp [initState]
      · have hall := mode1_allskip_loop env oF st (mode1RunItems listing iF oF false).length
          (mode1RunItems listing iF oF false) 0
          (initState (mode1RunItems listing iF oF false).length st1.fs st1.temp) hc
          (by simpa [initState] using houts)
        rw [hall.2.1]
        rw [batchLoop_total env.cancel _
          (fun a b cz => mode1Step_total env oF st false _ a b cz)]
        simp [initState]
      · have hall := mode1_allskip_loop env oF st (mode1RunItems listing iF oF false).length
          (mode1RunItems listing iF oF false) 0
          (initState (mode1RunItems listing iF oF false).length st1.fs st1.temp) hc
          (by simpa [initState] using houts)
        rw [hall.2.2.1]
        simp [initState]
      · have hall := mode1_allskip_loop env oF st (mode1RunItems listing iF oF false).length
          (mode1RunItems listing iF oF false) 0
          (initState (mode1RunItems listing iF oF false).length st1.fs st1.temp) hc
          (by simpa [initState] using houts)
        rw [hall.2.2.2.1]
        simp [initState]
      · have hall := mode1_allskip_loop env oF st (mode1RunItems listing iF oF false).length
          (mode1RunItems listing iF oF false) 0
          (initState (mode1RunItems listing iF oF false).length st1.fs st1.temp) hc
          (by simpa [initState] using houts)
        rw [hall.2.2.2.2.2]
        simp [initState]
      · intro e he
        have hall := mode1_allskip_loop env oF st (mode1RunItems listing iF oF false).length
          (mode1RunItems listing iF oF false) 0
          (initState (mode1RunItems listing iF oF false).length st1.fs st1.temp) hc
          (by simpa [initState] using houts)
        rw [hall.2.2.2.2.2] at he
        simp only [initState] at he
        simp only [List.nil_append] at he
        exact skipEvents_no_adapter _ _ 0 e he
      · intro k hk
        have hall := mode1_allskip_loop env oF st (mode1RunItems listing iF oF false).length
          (mode1RunItems listing iF oF false) 0
          (initState (mode1RunItems listing iF oF false).length st1.fs st1.temp) hc
          (by simpa [initState] using houts)
        rw [hall.2.2.2.2.2]
        simp only [initState, List.nil_append]
        have := skipEvents_progress_mem (mode1RunItems listing iF oF false).length
          (mode1RunItems listing iF oF false) 0 k hk
        simpa using this
  · intro env listing iF oF st fs0 temp0 st1 hc hok hfail
    simp only [process_mode3_optimize_gif] at hok
    split at hok
    · simp at hok
    · rename_i hcond
      simp only [RunResult.ok.injEq] at hok
      have houts : ∀ g, g ∈ mode3RunItems listing false →
          mode3OutPath oF st false g ∈ st1.fs := by
        rw [← hok]
        refine mode3_out_exists_loop env oF st false _ _ 0 _ hc ?_
        rw [hok, hfail]
        simp [initState]
      refine ⟨houts, ?_⟩
      simp only [process_mode3_optimize_gif]
      rw [if_neg hcond]
      refine ⟨_, rfl, ?_, ?_, ?_, ?_, ?_, ?_, ?_⟩
      · have := mode3_allskip_loop env oF st (mode3RunItems listing false).length
          (mode3RunItems listing false) 0
          (initState (mode3RunItems listing false).length st1.fs st1.temp) hc
          (by simpa [initState] using houts)
        rw [this.1]
        simp [initState]
      · have hall := mode3_allskip_loop env oF st (mode3RunItems listing false).length
          (mode3RunItems listing false) 0
          (initState (mode3RunItems listing false).length st1.fs st1.temp) hc
          (by simpa [initState] using houts)
        rw [hall.2.1]
        rw [batchLoop_total env.cancel _
          (fun a b cz => mode3Step_total env oF st false _ a b cz)]
        simp [initState]
      · have hall := mode3_allskip_loop env oF st (mode3RunItems listing false).length
          (mode3RunItems listing false) 0
          (initState (mode3RunItems listing false).length st1.fs st1.temp) hc
          (by simpa [initState] using houts)
        rw [hall.2.2.1]
        simp [initState]
      · have hall := mode3_allskip_loop env oF st (mode3RunItems listing false).length
          (mode3RunItems listing false) 0
          (initState (mode3RunItems listing false).length st1.fs st1.temp) hc
          (by simpa [initState] using houts)
        rw [hall.2.2.2.1]
        simp [initState]
      · have hall := mode3_allskip_loop env oF st (mode3RunItems listing false).length
          (mode3RunItems listing false) 0
          (initState (mode3RunItems listing false).length st1.fs st1.temp) hc
          (by simpa [initState] using houts)
        rw [hall.2.2.2.2.2]
        simp [initState]
      · intro e he
        have hall := mode3_allskip_loop env oF st (mode3RunItems listing false).length
          (mode3RunItems listing false) 0
          (initState (mode3RunItems listing false).length st1.fs st1.temp) hc
          (by simpa [initState] using houts)
        rw [hall.2.2.2.2.2] at he
        simp only [initState, List.nil_append] at he
        exact skipEvents_no_adapter _ _ 0 e he
      · intro k hk
        have hall := mode3_allskip_loop env oF st (mode3RunItems listing false).length
          (mode3RunItems listing false) 0
          (initState (mode3RunItems listing false).length st1.fs st1.temp) hc
          (by simpa [initState] using houts)
        rw [hall.2.2.2.2.2]
        simp only [initState, List.nil_append]
        have := skipEvents_progress_mem (mode3RunItems listing false).length
          (mode3RunItems listing false) 0 k hk
        simpa using this

/-- Witness for the amended C5: a concrete clean first run over one
video followed by a second run over the produced filesystem. -/
theorem claim_C5_bulk_idempotent_witness :
    (∀ v, v ∈ mode1RunItems ["a.mp4"] "in" "out" false →
      mode1OutPath "out" false v
        ∈ (okStateOf (process_mode1_video_to_gif envAllOk ["a.mp4"] "in" "out" demoSettings
            false [] []) (initState 0 [] [])).fs)
    ∧ ∃ st2,
      process_mode1_video_to_gif envAllOk ["a.mp4"] "in" "out" demoSettings false
          (okStateOf (process_mode1_video_to_gif envAllOk ["a.mp4"] "in" "out" demoSettings
            false [] []) (initState 0 [] [])).fs
          (okStateOf (process_mode1_video_to_gif envAllOk ["a.mp4"] "in" "out" demoSettings
            false [] []) (initState 0 [] [])).temp
        = RunResult.ok st2
      ∧ st2.stats.processed = 0
      ∧ st2.stats.skipped = st2.stats.total
      ∧ st2.stats.failed = 0
      ∧ st2.fs = (okStateOf (process_mode1_video_to_gif envAllOk ["a.mp4"] "in" "out"
          demoSettings false [] []) (initState 0 [] [])).fs
      ∧ st2.trace = skipEvents (mode1RunItems ["a.mp4"] "in" "out" false).length
          (mode1RunItems ["a.mp4"] "in" "out" false) 0
      ∧ (∀ e, e ∈ st2.trace → e.isAdapterCall = false)
      ∧ (∀ k, k < (mode1RunItems ["a.mp4"] "in" "out" false).length →
          Event.progress (k + 1) (mode1RunItems ["a.mp4"] "in" "out" false).length
            ∈ st2.trace) :=
  claim_C5_bulk_idempotent.1 envAllOk ["a.mp4"] "in" "out" demoSettings [] []
    (okStateOf (process_mode1_video_to_gif envAllOk ["a.mp4"] "in" "out" demoSettings
      false [] []) (initState 0 [] []))
    (fun _ => rfl) (by decide) (by decide)

/-- Counterexample to C5 as stated: when the single item of the first
run fails (its output is never produced), the repeated run does not
skip it — the adapter is invoked again, `skipped = 0 ≠ total = 1`,
and the derived output path still does not exist. -/
theorem claim_C5_counterexample :
    statsOf (process_mode1_video_to_gif envExtractFail ["a.mp4"] "in" "out" demoSettings false
      (okStateOf (process_mode1_video_to_gif envExtractFail ["a.mp4"] "in" "out" demoSettings
        false [] []) (initState 0 [] [])).fs
      (okStateOf (process_mode1_video_to_gif envExtractFail ["a.mp4"] "in" "out" demoSettings
        false [] []) (initState 0 [] [])).temp) = ⟨1, 0, 0, 1⟩
    ∧ Event.extractCall "a.mp4"
        ∈ traceOf (process_mode1_video_to_gif envExtractFail ["a.mp4"] "in" "out" demoSettings
            false
          (okStateOf (process_mode1_video_to_gif envExtractFail ["a.mp4"] "in" "out"
            demoSettings false [] []) (initState 0 [] [])).fs
          (okStateOf (process_mode1_video_to_gif envExtractFail ["a.mp4"] "in" "out"
            demoSettings false [] []) (initState 0 [] [])).temp)
    ∧ mode1OutPath "out" false "a.mp4"
        ∉ (okStateOf (process_mode1_video_to_gif envExtractFail ["a.mp4"] "in" "out"
            demoSettings false
          (okStateOf (process_mode1_video_to_gif envExtractFail ["a.mp4"] "in" "out"
            demoSettings false [] []) (initState 0 [] [])).fs
          (okStateOf (process_mode1_video_to_gif envExtractFail ["a.mp4"] "in" "out"
            demoSettings false [] []) (initState 0 [] [])).temp) (initState 0 [] [])).fs := by
  refine ⟨by decide, by decide, by decide⟩

/-! ## Order theory of the natural sort key (C9, C10) -/

theorem cmpNat_refl (m : Nat) : cmpNat m m = Ordering.eq := by
  simp [cmpNat]

theorem cmpNat_swap (m n : Nat) : cmpNat n m = (cmpNat m n).swap := by
  unfold cmpNat
  split_ifs <;> simp [Ordering.swap] <;> omega

theorem cmpNat_eq_iff (m n : Nat) : cmpNat m n = Ordering.eq ↔ m = n := by
  unfold cmpNat
  split_ifs <;> simp <;> omega

theorem cmpNat_le_trans (a b c : Nat) (h1 : cmpNat a b ≠ Ordering.gt)
    (h2 : cmpNat b c ≠ Ordering.gt) : cmpNat a c ≠ Ordering.gt := by
  unfold cmpNat at *
  split_ifs at * <;> simp_all <;> omega

theorem cmpNatList_swap : ∀ (a b : List Nat), cmpNatList b a = (cmpNatList a b).swap := by
  intro a
  induction a with
  | nil => intro b; cases b <;> simp [cmpNatList, Ordering.swap]
  | cons x xs ih =>
    intro b
    cases b with
    | nil => simp [cmpNatList, Ordering.swap]
    | cons y ys =>
      simp only [cmpNatList]
      rw [cmpNat_swap x y]
      cases hxy : cmpNat x y <;> simp [Ordering.swap, ih ys]

theorem cmpNatList_eq : ∀ (a b : List Nat), cmpNatList a b = Ordering.eq → a = b := by
  intro a
  induction a with
  | nil => intro b h; cases b <;> simp [cmpNatList] at h ⊢
  | cons x xs ih =>
    intro b h
    cases b with
    | nil => simp [cmpNatList] at h
    | cons y ys =>
      simp only [cmpNatList] at h
      cases hxy : cmpNat x y <;> rw [hxy] at h <;> try simp at h
      have hx := (cmpNat_eq_iff x y).mp hxy
      subst hx
      rw [ih ys h]

theorem cmpNatList_le_trans :
    ∀ (a b c : List Nat), cmpNatList a b ≠ Ordering.gt → cmpNatList b c ≠ Ordering.gt →
      cmpNatList a c ≠ Ordering.gt := by
  intro a
  induction a with
  | nil =>
    intro b c _ _
    cases c <;> simp [cmpNatList]
  | cons x xs ih =>
    intro b c h1 h2
    cases b with
    | nil => simp [cmpNatList] at h1
    | cons y ys =>
      cases c with
      | nil => simp [cmpNatList] at h2
      | cons z zs =>
        simp only [cmpNatList] at h1 h2 ⊢
        cases hxy : cmpNat x y <;> rw [hxy] at h1 <;> try simp at h1
        · -- x < y
          cases hyz : cmpNat y z <;> rw [hyz] at h2 <;> try simp at h2
          · have : cmpNat x z = Ordering.lt := by
              unfold cmpNat at *
              split_ifs at * <;> simp_all <;> omega
            simp [this]
          · have hy := (cmpNat_eq_iff y z).mp hyz
            subst hy
            simp [hxy]
        · -- x = y
          have hx := (cmpNat_eq_iff x y).mp hxy
          subst hx
          cases hyz : cmpNat x z <;> rw [hyz] at h2 <;> try simp at h2
          · simp [hyz]
          · simp only [hyz]
            exact ih ys zs h1 h2

theorem char_toNat_inj (c d : Char) (h : c.toNat = d.toNat) : c = d := by
  have h1 : Char.ofNat c.toNat = Char.ofNat d.toNat := by rw [h]
  rwa [Char.ofNat_toNat, Char.ofNat_toNat] at h1

theorem map_charToNat_inj : ∀ (a b : List Char),
    a.map Char.toNat = b.map Char.toNat → a = b := by
  intro a
  induction a with
  | nil => intro b h; cases b <;> simp_all
  | cons x xs ih =>
    intro b h
    cases b with
    | nil => simp at h
    | cons y ys =>
      simp only [List.map_cons, List.cons.injEq] at h
      rw [char_toNat_inj x y h.1, ih ys h.2]

theorem cmpKeyPart_swap (x y : KeyPart) :
    cmpKeyPart y x = (cmpKeyPart x y).map Ordering.swap := by
  cases x with
  | str a =>
    cases y with
    | str b =>
      simp only [cmpKeyPart, Option.map]
      rw [cmpNatList_swap (a.map Char.toNat) (b.map Char.toNat)]
    | num b => simp [cmpKeyPart, Option.map]
  | num a =>
    cases y with
    | str b => simp [cmpKeyPart, Option.map]
    | num b =>
      simp only [cmpKeyPart, Option.map]
      rw [cmpNat_swap a b]

theorem cmpKeyPart_eq (x y : KeyPart) (h : cmpKeyPart x y = some Ordering.eq) : x = y := by
  cases x <;> cases y <;> simp [cmpKeyPart] at h
  · rename_i a b
    rw [map_charToNat_inj a b (cmpNatList_eq _ _ h)]
  · rename_i a b
    rw [(cmpNat_eq_iff a b).mp h]

theorem cmpKey_swap : ∀ (k1 k2 : List KeyPart),
    cmpKey k2 k1 = (cmpKey k1 k2).map Ordering.swap := by
  intro k1
  induction k1 with
  | nil => intro k2; cases k2 <;> simp [cmpKey, Ordering.swap, Option.map]
  | cons x xs ih =>
    intro k2
    cases k2 with
    | nil => simp [cmpKey, Ordering.swap, Option.map]
    | cons y ys =>
      simp only [cmpKey]
      rw [cmpKeyPart_swap x y]
      cases hxy : cmpKeyPart x y with
      | none => simp [Option.map]
      | some o =>
        cases o <;> simp [Option.map, Ordering.swap, ih ys]

/-- Alternation shape of a key list: the flag tells whether the next
part must be a text piece. -/
def keyAlt : Bool → List KeyPart → Bool
  | _, [] => true
  | true, KeyPart.str _ :: rest => keyAlt false rest
  | false, KeyPart.num _ :: rest => keyAlt true rest
  | _, _ => false

theorem keyAlt_cons_true (x : KeyPart) (xs : List KeyPart)
    (h : keyAlt true (x :: xs) = true) :
    ∃ s, x = KeyPart.str s ∧ keyAlt false xs = true := by
  cases x
  · exact ⟨_, rfl, by simpa [keyAlt] using h⟩
  · simp [keyAlt] at h

theorem keyAlt_cons_false (x : KeyPart) (xs : List KeyPart)
    (h : keyAlt false (x :: xs) = true) :
    ∃ n, x = KeyPart.num n ∧ keyAlt true xs = true := by
  cases x
  · simp [keyAlt] at h
  · exact ⟨_, rfl, by simpa [keyAlt] using h⟩

theorem natKeyGo_alt : ∀ (cs : List Char),
    (∀ acc, keyAlt true (natKeyGo (Sum.inl acc) cs) = true)
    ∧ (∀ n, keyAlt false (natKeyGo (Sum.inr n) cs) = true) := by
  intro cs
  induction cs with
  | nil => exact ⟨fun _ => rfl, fun _ => rfl⟩
  | cons c rest ih =>
    constructor
    · intro acc
      simp only [natKeyGo]
      cases hd : c.isDigit
      · simp only [Bool.false_eq_true, if_false]
        exact ih.1 _
      · simp only [if_true]
        show keyAlt false (natKeyGo (Sum.inr _) rest) = true
        exact ih.2 _
    · intro n
      simp only [natKeyGo]
      cases hd : c.isDigit
      · simp only [Bool.false_eq_true, if_false]
        show keyAlt true (natKeyGo (Sum.inl _) rest) = true
        exact ih.1 _
      · simp only [if_true]
        exact ih.2 _

/-- Every natural sort key alternates text, number, text, number, …
starting with a text piece. -/
theorem natural_sort_key_alt (s : String) : keyAlt true (natural_sort_key s) = true :=
  (natKeyGo_alt s.toList).1 []

theorem natKeyGo_ne_nil : ∀ (cs : List Char) (st : List Char ⊕ Nat),
    natKeyGo st cs ≠ [] := by
  intro cs
  induction cs with
  | nil => intro st; cases st <;> simp [natKeyGo]
  | cons c rest ih =>
    intro st
    cases st with
    | inl acc =>
      simp only [natKeyGo]
      cases hd : c.isDigit
      · simp only [Bool.false_eq_true, if_false]
        exact ih _
      · simp
    | inr n =>
      simp only [natKeyGo]
      cases hd : c.isDigit
      · simp
      · simp only [if_true]
        exact ih _

theorem cmpNatList_refl : ∀ (a : List Nat), cmpNatList a a = Ordering.eq := by
  intro a
  induction a with
  | nil => rfl
  | cons x xs ih => simp [cmpNatList, cmpNat_refl, ih]

theorem cmpNat_lt_trans (a b c : Nat) (h1 : cmpNat a b = Ordering.lt)
    (h2 : cmpNat b c = Ordering.lt) : cmpNat a c = Ordering.lt := by
  unfold cmpNat at *
  split_ifs at * <;> simp_all <;> omega

theorem cmpNatList_lt_trans (a b c : List Nat) (h1 : cmpNatList a b = Ordering.lt)
    (h2 : cmpNatList b c = Ordering.lt) : cmpNatList a c = Ordering.lt := by
  have hle : cmpNatList a c ≠ Ordering.gt :=
    cmpNatList_le_trans a b c (by simp [h1]) (by simp [h2])
  cases hac : cmpNatList a c
  · rfl
  · exfalso
    have := cmpNatList_eq a c hac
    subst this
    have hsw := cmpNatList_swap a b
    rw [h1, h2] at hsw
    simp [Ordering.swap] at hsw
  · exact absurd hac hle

theorem cmpKey_isSome : ∀ (k1 : List KeyPart) (b : Bool) (k2 : List KeyPart),
    keyAlt b k1 = true → keyAlt b k2 = true → (cmpKey k1 k2).isSome = true := by
  intro k1
  induction k1 with
  | nil => intro b k2 _ _; cases k2 <;> simp [cmpKey]
  | cons x xs ih =>
    intro b k2 h1 h2
    cases k2 with
    | nil => simp [cmpKey]
    | cons y ys =>
      cases b
      · obtain ⟨n, rfl, h1t⟩ := keyAlt_cons_false x xs h1
        obtain ⟨m, rfl, h2t⟩ := keyAlt_cons_false y ys h2
        simp only [cmpKey, cmpKeyPart]
        cases hc : cmpNat n m <;> simp
        exact ih true ys h1t h2t
      · obtain ⟨a, rfl, h1t⟩ := keyAlt_cons_true x xs h1
        obtain ⟨bb, rfl, h2t⟩ := keyAlt_cons_true y ys h2
        simp only [cmpKey, cmpKeyPart]
        cases hc : cmpNatList (a.map Char.toNat) (bb.map Char.toNat) <;> simp
        exact ih false ys h1t h2t

theorem cmpKey_le_trans : ∀ (k1 : List KeyPart) (b : Bool) (k2 k3 : List KeyPart),
    keyAlt b k1 = true → keyAlt b k2 = true → keyAlt b k3 = true →
    cmpKey k1 k2 ≠ some Ordering.gt → cmpKey k2 k3 ≠ some Ordering.gt →
    cmpKey k1 k3 ≠ some Ordering.gt := by
  intro k1
  induction k1 with
  | nil =>
    intro b k2 k3 _ _ _ _ _
    cases k3 <;> simp [cmpKey]
  | cons x xs ih =>
    intro b k2 k3 h1 h2 h3 h12 h23
    cases k2 with
    | nil => simp [cmpKey] at h12
    | cons y ys =>
      cases k3 with
      | nil => simp [cmpKey] at h23
      | cons z zs =>
        cases b
        · obtain ⟨n, rfl, h1t⟩ := keyAlt_cons_false x xs h1
          obtain ⟨m, rfl, h2t⟩ := keyAlt_cons_false y ys h2
          obtain ⟨p, rfl, h3t⟩ := keyAlt_cons_false z zs h3
          simp only [cmpKey, cmpKeyPart] at h12 h23 ⊢
          cases hnm : cmpNat n m <;> rw [hnm] at h12
          · cases hmp : cmpNat m p <;> rw [hmp] at h23
            · rw [show cmpNat n p = Ordering.lt from cmpNat_lt_trans n m p hnm hmp]
              simp
            · have := (cmpNat_eq_iff m p).mp hmp
              subst this
              rw [hnm]
              simp
            · simp at h23
          · have := (cmpNat_eq_iff n m).mp hnm
            subst this
            cases hmp : cmpNat n p <;> rw [hmp] at h23
            · simp
            · exact ih true ys zs h1t h2t h3t h12 h23
            · simp at h23
          · simp at h12
        · obtain ⟨a, rfl, h1t⟩ := keyAlt_cons_true x xs h1
          obtain ⟨bb, rfl, h2t⟩ := keyAlt_cons_true y ys h2
          obtain ⟨cc, rfl, h3t⟩ := keyAlt_cons_true z zs h3
          simp only [cmpKey, cmpKeyPart] at h12 h23 ⊢
          cases hnm : cmpNatList (a.map Char.toNat) (bb.map Char.toNat) <;> rw [hnm] at h12
          · cases hmp : cmpNatList (bb.map Char.toNat) (cc.map Char.toNat) <;>
              rw [hmp] at h23
            · rw [show cmpNatList (a.map Char.toNat) (cc.map Char.toNat) = Ordering.lt from
                cmpNatList_lt_trans _ _ _ hnm hmp]
              simp
            · have := cmpNatList_eq _ _ hmp
              rw [← this, hnm]
              simp
            · simp at h23
          · have := cmpNatList_eq _ _ hnm
            rw [this]
            cases hmp : cmpNatList (bb.map Char.toNat) (cc.map Char.toNat) <;>
              rw [hmp] at h23
            · simp
            · exact ih false ys zs h1t h2t h3t h12 h23
            · simp at h23
          · simp at h12

theorem natLt_asymm (a b : String) (h : natLt a b = true) : natLt b a = false := by
  simp only [natLt, decide_eq_true_eq] at h
  have hsw := cmpKey_swap (natural_sort_key a) (natural_sort_key b)
  rw [h] at hsw
  simp only [Option.map] at hsw
  simp [natLt, hsw, Ordering.swap]

theorem natLt_false_iff (a b : String) :
    natLt b a = false
      ↔ cmpKey (natural_sort_key a) (natural_sort_key b) ≠ some Ordering.gt := by
  constructor
  · intro h hgt
    have hsw := cmpKey_swap (natural_sort_key a) (natural_sort_key b)
    rw [hgt] at hsw
    simp only [Option.map, Ordering.swap] at hsw
    simp [natLt, hsw] at h
  · intro h
    cases hlt : natLt b a
    · rfl
    · exfalso
      simp only [natLt, decide_eq_true_eq] at hlt
      have hsw := cmpKey_swap (natural_sort_key b) (natural_sort_key a)
      rw [hlt] at hsw
      simp only [Option.map, Ordering.swap] at hsw
      exact h hsw

theorem natLe_trans (a b c : String) (h1 : natLt b a = false) (h2 : natLt c b = false) :
    natLt c a = false := by
  rw [natLt_false_iff] at h1 h2 ⊢
  exact cmpKey_le_trans _ true _ _ (natural_sort_key_alt a) (natural_sort_key_alt b)
    (natural_sort_key_alt c) h1 h2

theorem mem_insertSorted {α : Type} (lt : α → α → Bool) (a x : α) :
    ∀ l, x ∈ insertSorted lt a l ↔ x = a ∨ x ∈ l := by
  intro l
  induction l with
  | nil => simp [insertSorted]
  | cons b l ih =>
    simp only [insertSorted]
    split_ifs
    · simp only [List.mem_cons, ih]
      tauto
    · simp [List.mem_cons]

theorem pairwise_insertSorted (a : String) :
    ∀ l, List.Pairwise (fun x y => natLt y x = false) l →
      List.Pairwise (fun x y => natLt y x = false) (insertSorted natLt a l) := by
  intro l
  induction l with
  | nil => intro _; simp [insertSorted]
  | cons b l ih =>
    intro hp
    rw [List.pairwise_cons] at hp
    simp only [insertSorted]
    split_ifs with hlt
    · rw [List.pairwise_cons]
      constructor
      · intro x hx
        rw [mem_insertSorted] at hx
        rcases hx with rfl | hx
        · exact natLt_asymm b x hlt
        · exact hp.1 x hx
      · exact ih hp.2
    · have hba : natLt b a = false := by
        cases hv : natLt b a
        · rfl
        · exact absurd hv hlt
      rw [List.pairwise_cons]
      constructor
      · intro x hx
        rcases List.mem_cons.mp hx with rfl | hx
        · exact hba
        · exact natLe_trans a b x hba (hp.1 x hx)
      · rw [List.pairwise_cons]
        exact ⟨hp.1, hp.2⟩

theorem pairwise_sortByLt :
    ∀ l : List String, List.Pairwise (fun x y => natLt y x = false) (sortByLt natLt l) := by
  intro l
  induction l with
  | nil => simp [sortByLt]
  | cons a l ih => exact pairwise_insertSorted a _ ih

theorem keyAlt_get : ∀ (l : List KeyPart) (b : Bool), keyAlt b l = true →
    ∀ (i : Nat) (h : i < l.length),
      (l.get ⟨i, h⟩).isStr = (decide (i % 2 = 0) == b) := by
  intro l
  induction l with
  | nil => intro b _ i h; simp at h
  | cons x xs ih =>
    intro b hb i h
    cases b
    · obtain ⟨n, rfl, ht⟩ := keyAlt_cons_false x xs hb
      cases i with
      | zero => simp [KeyPart.isStr]
      | succ i0 =>
        have hrec := ih true ht i0 (by simpa using h)
        simp only [List.get_cons_succ]
        rw [hrec]
        by_cases h0 : i0 % 2 = 0
        · simp [h0, show (i0 + 1) % 2 = 1 from by omega]
        · simp [h0, show (i0 + 1) % 2 = 0 from by omega]
    · obtain ⟨s0, rfl, ht⟩ := keyAlt_cons_true x xs hb
      cases i with
      | zero => simp [KeyPart.isStr]
      | succ i0 =>
        have hrec := ih false ht i0 (by simpa using h)
        simp only [List.get_cons_succ]
        rw [hrec]
        by_cases h0 : i0 % 2 = 0
        · simp [h0, show (i0 + 1) % 2 = 1 from by omega]
        · simp [h0, show (i0 + 1) % 2 = 0 from by omega]

/-! ## Claims about the natural sort order (C9, C10) -/

/-- **C9.** Every file list returned by classification is naturally
sorted (no element is strictly natural-order-below a predecessor;
maximal digit runs compare as integers), and on the example
`["img2.png", "img10.png", "img1.png"]` classification returns
`["img1.png", "img2.png", "img10.png"]`. -/
theorem claim_C9_natural_sort_order :
    (∀ (listing extensions : List String),
      List.Pairwise (fun a b => natLt b a = false)
        (scan_folder_for_files listing extensions))
    ∧ scan_for_images ["img2.png", "img10.png", "img1.png"]
        = ["img1.png", "img2.png", "img10.png"]
    ∧ natLt "frame2" "frame10" = true := by
  refine ⟨fun listing extensions => pairwise_sortByLt _, by decide, by decide⟩

/-! ## Unicode digit classes and the `ValueError` path (C10)

The program splits with `re.split(r'(\d+)', s)`, whose `\d` is the
Unicode category Nd (characters with a decimal digit value), but
guards the conversion with `str.isdigit()`, which also accepts
digit-like characters without a decimal value (such as the
superscript digits U+00B9, U+00B2, U+00B3); `int()` then raises
`ValueError` on a piece made of such characters.  The definitions
below model this with two distinct character classes — a fragment of
the Unicode tables containing the ASCII digits, three representative
non-ASCII Nd ranges, and the superscript digits as the
`isdigit`-but-not-decimal examples — and an `Option` result whose
`none` is the `ValueError`. -/

/-- Decimal digit value of a character in the modelled fragment of
the Unicode category Nd: ASCII `0`–`9`, Arabic-Indic U+0660–0669,
Devanagari U+0966–096F, fullwidth U+FF10–FF19. -/
def ndVal (c : Char) : Option Nat :=
  if '0' ≤ c ∧ c ≤ '9' then some (c.toNat - '0'.toNat)
  else if 0x660 ≤ c.toNat ∧ c.toNat ≤ 0x669 then some (c.toNat - 0x660)
  else if 0x966 ≤ c.toNat ∧ c.toNat ≤ 0x96F then some (c.toNat - 0x966)
  else if 0xFF10 ≤ c.toNat ∧ c.toNat ≤ 0xFF19 then some (c.toNat - 0xFF10)
  else none

/-- Membership in the split class `\d` (category Nd, modelled
fragment). -/
def isNd (c : Char) : Bool := (ndVal c).isSome

/-- Per-character `str.isdigit`: the Nd digits plus digit-like
characters without a decimal value (modelled by the superscript
digits U+00B2, U+00B3, U+00B9). -/
def pyCharIsDigit (c : Char) : Bool :=
  isNd c || c = Char.ofNat 0xB2 || c = Char.ofNat 0xB3 || c = Char.ofNat 0xB9

/-- `str.isdigit` of a piece: nonempty and every character
digit-like. -/
def pieceIsDigit (p : List Char) : Bool :=
  !p.isEmpty && p.all pyCharIsDigit

/-- Decimal accumulation of `int()`, failing on any character without
a decimal digit value. -/
def pyIntGo (acc : Nat) : List Char → Option Nat
  | [] => some acc
  | c :: rest =>
    match ndVal c with
    | some d => pyIntGo (acc * 10 + d) rest
    | none => none

/-- `int(piece)`: `none` models the `ValueError` raised on an empty
piece or on a character without a decimal digit value. -/
def pyInt (cs : List Char) : Option Nat :=
  if cs.isEmpty then none else pyIntGo 0 cs

/-- `re.split(r'(\d+)', s)` as a scan: the accumulator is the current
text piece or the current digit run, reversed. -/
def splitNdGo : (List Char ⊕ List Char) → List Char → List (List Char)
  | Sum.inl acc, [] => [acc.reverse]
  | Sum.inr acc, [] => [acc.reverse, []]
  | Sum.inl acc, c :: rest =>
    if isNd c then acc.reverse :: splitNdGo (Sum.inr [c]) rest
    else splitNdGo (Sum.inl (c :: acc)) rest
  | Sum.inr acc, c :: rest =>
    if isNd c then splitNdGo (Sum.inr (c :: acc)) rest
    else acc.reverse :: splitNdGo (Sum.inl [c]) rest

/-- The pieces of `re.split(r'(\d+)', s)`, in order. -/
def splitNd (cs : List Char) : List (List Char) :=
  splitNdGo (Sum.inl []) cs

/-- The conversion applied to one piece:
`int(c) if c.isdigit() else c.lower()`, with `none` for the
`ValueError` of `int`. -/
def keyPiece (p : List Char) : Option KeyPart :=
  if pieceIsDigit p then (pyInt p).map KeyPart.num
  else some (KeyPart.str (p.map pyToLower))

/-- The whole comprehension; `none` when any piece raises. -/
def keyPieces : List (List Char) → Option (List KeyPart)
  | [] => some []
  | p :: rest =>
    match keyPiece p, keyPieces rest with
    | some k, some ks => some (k :: ks)
    | _, _ => none

/-- `natural_sort_key` with the program's distinct split and
conversion character classes: `none` is the `ValueError` the function
raises on filenames such as `"²2.png"`. -/
def natural_sort_key_py (s : String) : Option (List KeyPart) :=
  keyPieces (splitNd s.toList)

/-- Alternation shape of split pieces: under `true` the next piece is
a text piece (no Nd character), under `false` a nonempty digit
run. -/
def piecesAlt : Bool → List (List Char) → Bool
  | _, [] => true
  | true, p :: rest => p.all (fun c => !isNd c) && piecesAlt false rest
  | false, p :: rest => (!p.isEmpty && p.all isNd) && piecesAlt true rest

theorem splitNdGo_ne_nil : ∀ (cs : List Char) (st : List Char ⊕ List Char),
    splitNdGo st cs ≠ [] := by
  intro cs
  induction cs with
  | nil => intro st; cases st <;> simp [splitNdGo]
  | cons c rest ih =>
    intro st
    cases st with
    | inl acc =>
      simp only [splitNdGo]
      cases hd : isNd c
      · simp only [Bool.false_eq_true, if_false]
        exact ih _
      · simp
    | inr acc =>
      simp only [splitNdGo]
      cases hd : isNd c
      · simp
      · simp only [if_true]
        exact ih _

theorem splitNdGo_alt : ∀ (cs : List Char),
    (∀ acc, acc.all (fun c => !isNd c) = true →
      piecesAlt true (splitNdGo (Sum.inl acc) cs) = true)
    ∧ (∀ acc, acc.isEmpty = false → acc.all isNd = true →
      piecesAlt false (splitNdGo (Sum.inr acc) cs) = true) := by
  intro cs
  induction cs with
  | nil =>
    constructor
    · intro acc hacc
      simp [splitNdGo, piecesAlt, List.all_reverse, hacc]
    · intro acc hne hacc
      cases acc with
      | nil => simp at hne
      | cons a acc0 =>
        simp only [List.all_cons, Bool.and_eq_true, List.all_eq_true] at hacc
        simp [splitNdGo, piecesAlt, List.all_reverse, List.all_eq_true, hacc.1]
        exact fun x hx => hacc.2 x hx
  | cons c rest ih =>
    constructor
    · intro acc hacc
      simp only [splitNdGo]
      cases hd : isNd c
      · simp only [Bool.false_eq_true, if_false]
        refine ih.1 (c :: acc) ?_
        simp [hacc, hd]
      · simp only [if_true, piecesAlt]
        rw [List.all_reverse, hacc, ih.2 [c] (by simp) (by simp [hd])]
        rfl
    · intro acc hne hacc
      simp only [splitNdGo]
      cases hd : isNd c
      · simp only [Bool.false_eq_true, if_false, piecesAlt]
        cases acc with
        | nil => simp at hne
        | cons a acc0 =>
          rw [List.all_reverse, hacc, ih.1 [c] (by simp [hd])]
          simp
      · simp only [if_true]
        refine ih.2 (c :: acc) (by simp) ?_
        simp [hacc, hd]

theorem pyIntGo_isSome : ∀ (cs : List Char) (acc : Nat),
    cs.all isNd = true → (pyIntGo acc cs).isSome = true := by
  intro cs
  induction cs with
  | nil => intro acc _; simp [pyIntGo]
  | cons c rest ih =>
    intro acc hall
    simp only [List.all_cons, Bool.and_eq_true] at hall
    have hv : (ndVal c).isSome = true := hall.1
    rw [Option.isSome_iff_exists] at hv
    obtain ⟨d, hd⟩ := hv
    simp only [pyIntGo, hd]
    exact ih _ hall.2

theorem isNd_pyCharIsDigit (c : Char) (h : isNd c = true) : pyCharIsDigit c = true := by
  simp [pyCharIsDigit, h]

theorem keyPiece_of_digit_run (p : List Char) (hne : p.isEmpty = false)
    (hall : p.all isNd = true) : ∃ n, keyPiece p = some (KeyPart.num n) := by
  have hdig : pieceIsDigit p = true := by
    simp only [pieceIsDigit, hne, Bool.not_false, Bool.true_and]
    rw [List.all_eq_true] at hall ⊢
    exact fun c hc => isNd_pyCharIsDigit c (hall c hc)
  have hsome : (pyInt p).isSome = true := by
    unfold pyInt
    rw [if_neg (by simp [hne])]
    exact pyIntGo_isSome p 0 hall
  rw [Option.isSome_iff_exists] at hsome
  obtain ⟨n, hn⟩ := hsome
  exact ⟨n, by simp [keyPiece, hdig, hn]⟩

theorem keyPiece_of_text (p : List Char) (hall : p.all (fun c => !isNd c) = true)
    (hk : keyPiece p ≠ none) : keyPiece p = some (KeyPart.str (p.map pyToLower)) := by
  cases hd : pieceIsDigit p
  · simp [keyPiece, hd]
  · exfalso
    simp only [pieceIsDigit, Bool.and_eq_true] at hd
    cases p with
    | nil => simp at hd
    | cons c p0 =>
      have hc : isNd c = false := by
        have := List.all_eq_true.mp hall c (by simp)
        simpa using this
      have hv : ndVal c = none := by
        cases hv : ndVal c
        · rfl
        · exfalso
          rw [isNd, hv] at hc
          simp at hc
      apply hk
      simp only [keyPiece, pieceIsDigit, hd.1, hd.2]
      rw [if_pos (by simp)]
      simp only [pyInt, List.isEmpty_cons, Bool.false_eq_true, if_false, pyIntGo, hv]
      rfl

theorem keyPieces_alt : ∀ (ps : List (List Char)) (b : Bool) (k : List KeyPart),
    piecesAlt b ps = true → keyPieces ps = some k → keyAlt b k = true := by
  intro ps
  induction ps with
  | nil =>
    intro b k _ hk
    simp only [keyPieces, Option.some.injEq] at hk
    subst hk
    cases b <;> rfl
  | cons p rest ih =>
    intro b k hb hk
    cases b
    · -- digit run at the head
      simp only [piecesAlt, Bool.and_eq_true] at hb
      obtain ⟨n, hn⟩ := keyPiece_of_digit_run p
        (by simpa using hb.1.1) hb.1.2
      simp only [keyPieces, hn] at hk
      cases hrest : keyPieces rest with
      | none => rw [hrest] at hk; simp at hk
      | some ks =>
        rw [hrest] at hk
        simp only [Option.some.injEq] at hk
        subst hk
        show keyAlt true ks = true
        exact ih true ks hb.2 hrest
    · -- text piece at the head
      simp only [piecesAlt, Bool.and_eq_true] at hb
      have hne : keyPiece p ≠ none := by
        intro hcontra
        simp only [keyPieces, hcontra] at hk
        exact absurd hk (by simp)
      have hp := keyPiece_of_text p hb.1 hne
      simp only [keyPieces, hp] at hk
      cases hrest : keyPieces rest with
      | none => rw [hrest] at hk; simp at hk
      | some ks =>
        rw [hrest] at hk
        simp only [Option.some.injEq] at hk
        subst hk
        show keyAlt false ks = true
        exact ih false ks hb.2 hrest

theorem ascii_pyCharIsDigit (c : Char) (h : c.toNat < 128) :
    pyCharIsDigit c = isNd c := by
  have h2 : c ≠ Char.ofNat 0xB2 := by
    intro he
    rw [he] at h
    exact absurd h (by decide)
  have h3 : c ≠ Char.ofNat 0xB3 := by
    intro he
    rw [he] at h
    exact absurd h (by decide)
  have h4 : c ≠ Char.ofNat 0xB9 := by
    intro he
    rw [he] at h
    exact absurd h (by decide)
  simp [pyCharIsDigit, h2, h3, h4]

theorem splitNdGo_all (P : Char → Bool) : ∀ (cs : List Char),
    (∀ acc, acc.all P = true → cs.all P = true →
      ∀ p, p ∈ splitNdGo (Sum.inl acc) cs → p.all P = true)
    ∧ (∀ acc, acc.all P = true → cs.all P = true →
      ∀ p, p ∈ splitNdGo (Sum.inr acc) cs → p.all P = true) := by
  intro cs
  induction cs with
  | nil =>
    constructor
    · intro acc hacc _ p hp
      simp only [splitNdGo, List.mem_singleton] at hp
      subst hp
      simpa [List.all_reverse] using hacc
    · intro acc hacc _ p hp
      simp only [splitNdGo, List.mem_cons, List.mem_singleton] at hp
      rcases hp with hp | hp | hp
      · subst hp
        simpa [List.all_reverse] using hacc
      · subst hp
        simp
      · simp at hp
  | cons c rest ih =>
    constructor
    · intro acc hacc hcs p hp
      simp only [List.all_cons, Bool.and_eq_true] at hcs
      simp only [splitNdGo] at hp
      cases hd : isNd c <;> rw [hd] at hp
      · simp only [Bool.false_eq_true, if_false] at hp
        exact ih.1 (c :: acc) (by simp [hacc, hcs.1]) hcs.2 p hp
      · simp only [if_true, List.mem_cons] at hp
        rcases hp with hp | hp
        · subst hp
          simpa [List.all_reverse] using hacc
        · exact ih.2 [c] (by simp [hcs.1]) hcs.2 p hp
    · intro acc hacc hcs p hp
      simp only [List.all_cons, Bool.and_eq_true] at hcs
      simp only [splitNdGo] at hp
      cases hd : isNd c <;> rw [hd] at hp
      · simp only [Bool.false_eq_true, if_false, List.mem_cons] at hp
        rcases hp with hp | hp
        · subst hp
          simpa [List.all_reverse] using hacc
        · exact ih.1 [c] (by simp [hcs.1]) hcs.2 p hp
      · simp only [if_true] at hp
        exact ih.2 (c :: acc) (by simp [hacc, hcs.1]) hcs.2 p hp

theorem keyPieces_isSome_of_ascii : ∀ (ps : List (List Char)) (b : Bool),
    piecesAlt b ps = true →
    (∀ p, p ∈ ps → p.all (fun c => decide (c.toNat < 128)) = true) →
    (keyPieces ps).isSome = true := by
  intro ps
  induction ps with
  | nil => intro b _ _; simp [keyPieces]
  | cons p rest ih =>
    intro b hb hascii
    cases b
    · simp only [piecesAlt, Bool.and_eq_true] at hb
      obtain ⟨n, hn⟩ := keyPiece_of_digit_run p
        (by simpa using hb.1.1) hb.1.2
      have hrest := ih true hb.2 (fun q hq => hascii q (by simp [hq]))
      rw [Option.isSome_iff_exists] at hrest
      obtain ⟨ks, hks⟩ := hrest
      simp [keyPieces, hn, hks]
    · simp only [piecesAlt, Bool.and_eq_true] at hb
      have hdig : pieceIsDigit p = false := by
        cases hd : pieceIsDigit p
        · rfl
        · exfalso
          simp only [pieceIsDigit, Bool.and_eq_true] at hd
          cases p with
          | nil => simp at hd
          | cons c p0 =>
            have hpy : pyCharIsDigit c = true := List.all_eq_true.mp hd.2 c (by simp)
            have hcascii : c.toNat < 128 := by
              have := List.all_eq_true.mp (hascii (c :: p0) (by simp)) c (by simp)
              simpa using this
            rw [ascii_pyCharIsDigit c hcascii] at hpy
            have := List.all_eq_true.mp hb.1 c (by simp)
            rw [hpy] at this
            simp at this
      have hrest := ih false hb.2 (fun q hq => hascii q (by simp [hq]))
      rw [Option.isSome_iff_exists] at hrest
      obtain ⟨ks, hks⟩ := hrest
      simp [keyPieces, keyPiece, hdig, hks]

theorem keyPieces_cons_ne_nil (p : List Char) (ps : List (List Char)) (k : List KeyPart)
    (hk : keyPieces (p :: ps) = some k) : k ≠ [] := by
  simp only [keyPieces] at hk
  cases h1 : keyPiece p <;> rw [h1] at hk
  · simp at hk
  · cases h2 : keyPieces ps <;> rw [h2] at hk
    · simp at hk
    · simp only [Option.some.injEq] at hk
      subst hk
      simp

/-- **C10 (amended).** The program's key function is not defined on
arbitrary filenames: a filename with a digit-like character that has
no decimal value (such as the superscript `²`) makes `int` raise
`ValueError`, because the split uses `\d` (category Nd) while the
conversion guard uses `str.isdigit`.  Whenever the key computation
does succeed — in particular on every ASCII filename — the key is a
nonempty list that begins with a (possibly empty) string component
and alternates strictly between string components at even indices and
integer components at odd indices, so comparing two computed keys
never compares an integer with a string, and the induced ordering on
such filenames is total and antisymmetric, hence deterministic and
crash-free there. -/
theorem claim_C10_key_alternation_safety :
    (∀ (s : String) (k : List KeyPart), natural_sort_key_py s = some k →
      keyAlt true k = true
      ∧ k ≠ []
      ∧ (∃ s0 rest, k = KeyPart.str s0 :: rest)
      ∧ (∀ (i : Nat), ∀ h : i < k.length, (k.get ⟨i, h⟩).isStr = decide (i % 2 = 0)))
  ∧ (∀ s : String, s.toList.all (fun c => decide (c.toNat < 128)) = true →
      (natural_sort_key_py s).isSome = true)
  ∧ (∀ (s t : String) (k1 k2 : List KeyPart),
      natural_sort_key_py s = some k1 → natural_sort_key_py t = some k2 →
      (cmpKey k1 k2).isSome = true
      ∧ (cmpKey k1 k2 = some Ordering.lt ∨ cmpKey k2 k1 = some Ordering.lt
         ∨ cmpKey k1 k2 = some Ordering.eq)
      ∧ (cmpKey k1 k2 = some Ordering.lt ↔ cmpKey k2 k1 = some Ordering.gt)) := by
  have halt : ∀ (s : String) (k : List KeyPart), natural_sort_key_py s = some k →
      keyAlt true k = true := by
    intro s k hk
    exact keyPieces_alt (splitNd s.toList) true k
      ((splitNdGo_alt s.toList).1 [] (by simp)) hk
  refine ⟨?_, ?_, ?_⟩
  · intro s k hk
    have h1 := halt s k hk
    have h2 : k ≠ [] := by
      cases hsp : splitNd s.toList with
      | nil => exact absurd hsp (splitNdGo_ne_nil s.toList _)
      | cons p ps =>
        unfold natural_sort_key_py at hk
        rw [hsp] at hk
        exact keyPieces_cons_ne_nil p ps k hk
    refine ⟨h1, h2, ?_, ?_⟩
    · cases hk2 : k with
      | nil => exact absurd hk2 h2
      | cons x rest =>
        rw [hk2] at h1
        obtain ⟨s0, rfl, _⟩ := keyAlt_cons_true x rest h1
        exact ⟨s0, rest, rfl⟩
    · intro i h
      have := keyAlt_get k true h1 i h
      simpa using this
  · intro s hascii
    unfold natural_sort_key_py
    refine keyPieces_isSome_of_ascii (splitNd s.toList) true
      ((splitNdGo_alt s.toList).1 [] (by simp)) ?_
    intro p hp
    exact ((splitNdGo_all (fun c => decide (c.toNat < 128)) s.toList).1 [] (by simp)
      hascii) p hp
  · intro s t k1 k2 hk1 hk2
    have h1 := halt s k1 hk1
    have h2 := halt t k2 hk2
    refine ⟨cmpKey_isSome k1 true k2 h1 h2, ?_, ?_⟩
    · have hsome := cmpKey_isSome k1 true k2 h1 h2
      cases hc : cmpKey k1 k2 with
      | none => rw [hc] at hsome; simp at hsome
      | some o =>
        cases o
        · exact Or.inl rfl
        · exact Or.inr (Or.inr rfl)
        · refine Or.inr (Or.inl ?_)
          have hsw := cmpKey_swap k1 k2
          rw [hc] at hsw
          simpa [Option.map, Ordering.swap] using hsw
    · constructor
      · intro h
        have hsw := cmpKey_swap k1 k2
        rw [h] at hsw
        simpa [Option.map, Ordering.swap] using hsw
      · intro h
        have hsw := cmpKey_swap k2 k1
        rw [h] at hsw
        simpa [Option.map, Ordering.swap] using hsw

/-- Witness for the amended C10: the successfully computed key of
`"img2.png"` alternates starting with a string component. -/
theorem claim_C10_key_alternation_safety_witness :
    keyAlt true [KeyPart.str ['i', 'm', 'g'], KeyPart.num 2,
      KeyPart.str ['.', 'p', 'n', 'g']] = true :=
  (claim_C10_key_alternation_safety.1 "img2.png"
    [KeyPart.str ['i', 'm', 'g'], KeyPart.num 2, KeyPart.str ['.', 'p', 'n', 'g']]
    (by decide)).1

/-- Counterexample to C10 as stated: the program's `natural_sort_key`
is not total on arbitrary filenames — on `"²2.png"` the superscript
`²` passes the `str.isdigit` conversion guard without having a
decimal digit value, so `int` raises `ValueError` (modelled by
`none`): no alternating key exists for that filename and the sort
crashes on it.  (On `"img2.png"` the computation succeeds as
expected.) -/
theorem claim_C10_counterexample :
    natural_sort_key_py "²2.png" = none
    ∧ pyCharIsDigit (Char.ofNat 0xB2) = true
    ∧ isNd (Char.ofNat 0xB2) = false
    ∧ natural_sort_key_py "img2.png"
        = some [KeyPart.str ['i', 'm', 'g'], KeyPart.num 2,
            KeyPart.str ['.', 'p', 'n', 'g']] := by
  refine ⟨by decide, by decide, by decide, by decide⟩
